import Mathlib

/- Verification development for the ms-excel-compatibility-checker
repository: a shallow embedding of the corruption-diagnosis and
content-recovery logic of `src/utils/excelChecker.ts` and
`src/components/FileRecoveryPreview.tsx`, with theorems about the
behaviour of that logic. -/

namespace ExcelCheck

/-! ### Text utilities

Text is modelled as `List Char`; raw file contents as `List Nat` (byte
values `0..255`).  JavaScript string search (`String.includes`,
`RegExp.exec` under the `g` flag) is modelled by `findSub` (leftmost
occurrence of a literal) and `scanLoop` (repeated leftmost matching that
resumes after each match and advances by one character after a failed
attempt, which is the observable behaviour of `exec` for the patterns
used by this code). -/

/-- Leftmost index at which `needle` occurs in `hay` as a contiguous
substring, if any. -/
def findSub (needle : List Char) : List Char → Option Nat
  | [] => if needle.isPrefixOf ([] : List Char) then some 0 else none
  | c :: cs =>
    if needle.isPrefixOf (c :: cs) then some 0
    else (findSub needle cs).map (· + 1)

/-- JS `hay.includes(needle)`. -/
def textIncludes (hay needle : List Char) : Bool :=
  (findSub needle hay).isSome

/-- The character set removed by JS `String.prototype.trim` (the ASCII
part plus NBSP and the BOM; the remaining Unicode white space code
points do not occur in the inputs considered here). -/
def isJsSpace (c : Char) : Bool :=
  c = ' ' || c = '\t' || c = '\n' || c = '\r' ||
  c = Char.ofNat 11 || c = Char.ofNat 12 || c = Char.ofNat 0xA0 ||
  c = Char.ofNat 0xFEFF

/-- JS `s.trim()`. -/
def jsTrim (s : List Char) : List Char :=
  ((s.dropWhile isJsSpace).reverse.dropWhile isJsSpace).reverse

def isAsciiDigit (c : Char) : Bool := '0' ≤ c && c ≤ '9'

def isAsciiUpper (c : Char) : Bool := 'A' ≤ c && c ≤ 'Z'

def isAsciiLetter (c : Char) : Bool :=
  ('a' ≤ c && c ≤ 'z') || ('A' ≤ c && c ≤ 'Z')

/-- Numeric value of a digit string (the behaviour of JS `parseInt` on a
match of `\d+`, ignoring the float rounding that only affects digit
strings far beyond any realistic row or shared-string index). -/
def parseDigits (s : List Char) : Nat :=
  s.foldl (fun a c => 10 * a + (c.toNat - 48)) 0

/-- ASCII lower-casing, the part of JS `toLowerCase` / the `i` regex
flag exercised by file-extension matching. -/
def lowerAscii (s : List Char) : List Char :=
  s.map fun c => if isAsciiUpper c then Char.ofNat (c.toNat + 32) else c

/-! ### UTF-8 decoding

`new TextDecoder().decode` never throws in its default configuration;
malformed input produces U+FFFD replacement characters.  This is the
WHATWG decoding algorithm. -/

/-- The replacement character U+FFFD. -/
def replChar : Char := Char.ofNat 0xFFFD

/-- WHATWG UTF-8 decode with replacement, modelling
`new TextDecoder().decode` on a byte sequence. -/
def utf8Decode : List Nat → List Char
  | [] => []
  | b :: bs =>
    if b ≤ 0x7F then Char.ofNat b :: utf8Decode bs
    else if 0xC2 ≤ b ∧ b ≤ 0xDF then
      match bs with
      | [] => [replChar]
      | b1 :: bs1 =>
        if 0x80 ≤ b1 ∧ b1 ≤ 0xBF then
          Char.ofNat ((b - 0xC0) * 64 + (b1 - 0x80)) :: utf8Decode bs1
        else replChar :: utf8Decode (b1 :: bs1)
    else if 0xE0 ≤ b ∧ b ≤ 0xEF then
      match bs with
      | [] => [replChar]
      | b1 :: bs1 =>
        if (if b = 0xE0 then 0xA0 else 0x80) ≤ b1 ∧
            b1 ≤ (if b = 0xED then 0x9F else 0xBF) then
          match bs1 with
          | [] => [replChar]
          | b2 :: bs2 =>
            if 0x80 ≤ b2 ∧ b2 ≤ 0xBF then
              Char.ofNat ((b - 0xE0) * 4096 + (b1 - 0x80) * 64 + (b2 - 0x80)) ::
                utf8Decode bs2
            else replChar :: utf8Decode (b2 :: bs2)
        else replChar :: utf8Decode (b1 :: bs1)
    else if 0xF0 ≤ b ∧ b ≤ 0xF4 then
      match bs with
      | [] => [replChar]
      | b1 :: bs1 =>
        if (if b = 0xF0 then 0x90 else 0x80) ≤ b1 ∧
            b1 ≤ (if b = 0xF4 then 0x8F else 0xBF) then
          match bs1 with
          | [] => [replChar]
          | b2 :: bs2 =>
            if 0x80 ≤ b2 ∧ b2 ≤ 0xBF then
              match bs2 with
              | [] => [replChar]
              | b3 :: bs3 =>
                if 0x80 ≤ b3 ∧ b3 ≤ 0xBF then
                  Char.ofNat ((b - 0xF0) * 262144 + (b1 - 0x80) * 4096 +
                      (b2 - 0x80) * 64 + (b3 - 0x80)) :: utf8Decode bs3
                else replChar :: utf8Decode (b3 :: bs3)
            else replChar :: utf8Decode (b2 :: bs2)
        else replChar :: utf8Decode (b1 :: bs1)
    else replChar :: utf8Decode bs

/-! ### Occurrence reasoning

`NoPartial needle x` states that at every start position strictly inside
`x` the comparison of `needle` against the text fails within `x` itself,
so no occurrence of `needle` can begin inside `x` whatever text follows
it.  It composes over concatenation, which lets occurrence indices be
computed through rendered markup. -/

/-- No (possibly partial) occurrence of `needle` begins inside `x`. -/
def NoPartial (needle x : List Char) : Prop :=
  ∀ p, p < x.length → ¬ (x.drop p <+: needle) ∧ ¬ (needle <+: x.drop p)

instance (needle x : List Char) : Decidable (NoPartial needle x) := by
  unfold NoPartial; infer_instance

theorem noPartial_nil (needle : List Char) : NoPartial needle [] := by
  intro p hp; simp at hp

theorem noPartial_tail {needle : List Char} {c : Char} {x : List Char}
    (h : NoPartial needle (c :: x)) : NoPartial needle x := by
  intro p hp
  have := h (p + 1) (by simpa using Nat.succ_lt_succ hp)
  simpa using this

theorem prefix_append_cases {l a b : List Char} (h : l <+: a ++ b) :
    l <+: a ∨ a <+: l := by
  exact List.prefix_or_prefix_of_prefix h (List.prefix_append a b)

theorem noPartial_append {needle a b : List Char}
    (ha : NoPartial needle a) (hb : NoPartial needle b) :
    NoPartial needle (a ++ b) := by
  intro p hp
  rcases Nat.lt_or_ge p a.length with hpa | hpa
  · rw [List.drop_append_of_le_length (Nat.le_of_lt hpa)]
    constructor
    · intro hpre
      have hsub : a.drop p <+: a.drop p ++ b := List.prefix_append _ b
      exact (ha p hpa).1 (hsub.trans hpre)
    · intro hpre
      rcases prefix_append_cases hpre with h' | h'
      · exact (ha p hpa).2 h'
      · exact (ha p hpa).1 h'
  · have hdrop : (a ++ b).drop p = b.drop (p - a.length) := by
      rw [List.drop_append_eq_append_drop, List.drop_eq_nil_of_le hpa,
        List.nil_append]
    rw [hdrop]
    have hlt : p - a.length < b.length := by
      have := hp
      simp only [List.length_append] at this
      omega
    exact hb (p - a.length) hlt

theorem ne_nil_of_drop_lt {x : List Char} {p : Nat} (hp : p < x.length) :
    x.drop p ≠ [] := by
  intro h
  have := congrArg List.length h
  simp at this
  omega

theorem noPartial_of_head_free {needle x : List Char} {h : Char}
    (hn : needle.head? = some h) (hx : ∀ c ∈ x, c ≠ h) :
    NoPartial needle x := by
  intro p hp
  have hne : x.drop p ≠ [] := ne_nil_of_drop_lt hp
  rcases hxd : x.drop p with _ | ⟨d, ds⟩
  · exact absurd hxd hne
  have hdmem : d ∈ x := by
    have hmem : d ∈ x.drop p := by rw [hxd]; exact List.mem_cons_self d ds
    exact List.mem_of_mem_drop hmem
  have hdh : d ≠ h := hx d hdmem
  rcases hnd : needle with _ | ⟨e, es⟩
  · rw [hnd] at hn; simp at hn
  have heh : e = h := by rw [hnd] at hn; simpa using hn
  constructor
  · intro hpre
    have hde : d = e := (List.cons_prefix_cons.mp hpre).1
    exact hdh (heh ▸ hde)
  · intro hpre
    have hed : e = d := (List.cons_prefix_cons.mp hpre).1
    exact hdh (heh ▸ hed.symm)

theorem not_isPrefixOf_of_noPartial {needle x : List Char} {t : List Char}
    (hx : NoPartial needle x) (hne : x ≠ []) :
    needle.isPrefixOf (x ++ t) = false := by
  rcases hx' : x with _ | ⟨c, cs⟩
  · exact absurd hx' hne
  subst hx'
  by_contra hcontra
  have hpre : needle <+: (c :: cs) ++ t := by
    have hb : needle.isPrefixOf ((c :: cs) ++ t) = true := by
      cases hval : needle.isPrefixOf ((c :: cs) ++ t)
      · exact absurd hval hcontra
      · rfl
    exact List.isPrefixOf_iff_prefix.mp hb
  have h0 := hx 0 (by simp)
  simp only [List.drop_zero] at h0
  rcases prefix_append_cases hpre with h' | h'
  · exact h0.2 h'
  · exact h0.1 h'

/-- Shifting the leftmost-occurrence search over a region in which no
occurrence of `needle` can begin. -/
theorem findSub_append_shift {needle x : List Char}
    (hx : NoPartial needle x) (t : List Char) :
    findSub needle (x ++ t) = (findSub needle t).map (· + x.length) := by
  induction x with
  | nil =>
    simp only [List.nil_append, List.length_nil]
    cases findSub needle t <;> simp
  | cons c cs ih =>
    have hfalse : needle.isPrefixOf (c :: (cs ++ t)) = false := by
      have hh : needle.isPrefixOf ((c :: cs) ++ t) = false :=
        not_isPrefixOf_of_noPartial hx (by simp)
      simpa using hh
    have hx' := noPartial_tail hx
    show findSub needle (c :: (cs ++ t)) = _
    rw [show findSub needle (c :: (cs ++ t)) =
        if needle.isPrefixOf (c :: (cs ++ t)) then some 0
        else (findSub needle (cs ++ t)).map (· + 1) from rfl]
    rw [hfalse]
    simp only [Bool.false_eq_true, if_false]
    rw [ih hx']
    rcases findSub needle t with _ | v
    · rfl
    · show some (v + cs.length + 1) = some (v + (c :: cs).length)
      simp only [List.length_cons]
      rfl

theorem findSub_eq_zero {needle l : List Char}
    (h : needle.isPrefixOf l = true) : findSub needle l = some 0 := by
  cases l <;> simp [findSub, h]

theorem findSub_eq_zero_of_append (needle t : List Char) :
    findSub needle (needle ++ t) = some 0 :=
  findSub_eq_zero (List.isPrefixOf_iff_prefix.mpr (List.prefix_append needle t))

/-- The basic computation pattern for occurrence indices in rendered
markup: a needle-free region, then the needle itself. -/
theorem findSub_shift_exact {needle x : List Char}
    (hx : NoPartial needle x) (t : List Char) :
    findSub needle (x ++ needle ++ t) = some x.length := by
  rw [List.append_assoc, findSub_append_shift hx, findSub_eq_zero_of_append]
  simp

/-! ### Generic scan loop

All the `while ((m = re.exec(text)) !== null)` loops in the source are
instances of `scanLoop step`: `step t` attempts a match at the start of
`t` and returns the extracted value together with the total length of
the match; on failure the scan advances one character.  The fuel
argument only serves termination; `scanAll` supplies enough fuel for any
input. -/

def scanLoop {α : Type} (step : List Char → Option (α × Nat)) :
    Nat → List Char → List α
  | 0, _ => []
  | _ + 1, [] => []
  | fuel + 1, c :: cs =>
    match step (c :: cs) with
    | some (a, len) => a :: scanLoop step fuel ((c :: cs).drop (max len 1))
    | none => scanLoop step fuel cs

/-- `scanLoop` with enough fuel to exhaust the input. -/
def scanAll {α : Type} (step : List Char → Option (α × Nat))
    (t : List Char) : List α :=
  scanLoop step t.length t

theorem scanLoop_fuel_congr {α : Type}
    (step : List Char → Option (α × Nat)) :
    ∀ f₁ f₂ t, t.length ≤ f₁ → t.length ≤ f₂ →
      scanLoop step f₁ t = scanLoop step f₂ t := by
  intro f₁
  induction f₁ with
  | zero =>
    intro f₂ t h1 h2
    have : t = [] := List.length_eq_zero.mp (Nat.le_zero.mp h1)
    subst this
    cases f₂ <;> rfl
  | succ g ih =>
    intro f₂ t h1 h2
    rcases t with _ | ⟨c, cs⟩
    · cases f₂ <;> rfl
    rcases f₂ with _ | h₂
    · simp at h2
    rcases hstep : step (c :: cs) with _ | ⟨a, len⟩
    · simp only [scanLoop, hstep]
      exact ih h₂ cs (by simpa using h1) (by simpa using h2)
    · have hlen : ((c :: cs).drop (max len 1)).length ≤ cs.length := by
        simp only [List.length_drop, List.length_cons]
        omega
      have hcs1 : cs.length ≤ g := by simpa using h1
      have hcs2 : cs.length ≤ h₂ := by simpa using h2
      simp only [scanLoop, hstep]
      rw [ih h₂ _ (le_trans hlen hcs1) (le_trans hlen hcs2)]

theorem scanAll_eq_scanLoop {α : Type}
    (step : List Char → Option (α × Nat)) {t : List Char} {f : Nat}
    (hf : t.length ≤ f) : scanLoop step f t = scanAll step t :=
  scanLoop_fuel_congr step f t.length t hf (Nat.le_refl _)

/-- A scan skips a region at every position of which the matcher
fails. -/
theorem scanAll_append_dead {α : Type}
    {step : List Char → Option (α × Nat)} {x t : List Char}
    (hx : ∀ p, p < x.length → step (x.drop p ++ t) = none) :
    scanAll step (x ++ t) = scanAll step t := by
  induction x with
  | nil => simp [scanAll]
  | cons c cs ih =>
    have h0 : step (c :: (cs ++ t)) = none := by
      have hh := hx 0 (by simp)
      simpa using hh
    have key : scanAll step ((c :: cs) ++ t) = scanAll step (cs ++ t) := by
      show scanLoop step ((c :: cs) ++ t).length ((c :: cs) ++ t) =
        scanLoop step (cs ++ t).length (cs ++ t)
      rw [show ((c :: cs) ++ t : List Char) = c :: (cs ++ t) from rfl]
      rw [show (c :: (cs ++ t)).length = (cs ++ t).length + 1 from by simp]
      simp only [scanLoop, h0]
    rw [key]
    exact ih fun p hp => by
      have hh := hx (p + 1) (by simpa using Nat.succ_lt_succ hp)
      simpa using hh

/-- A scan consumes a full match at the head of the input. -/
theorem scanAll_append_match {α : Type}
    {step : List Char → Option (α × Nat)} {m t : List Char} {a : α}
    (hm : step (m ++ t) = some (a, m.length)) (hne : m ≠ []) :
    scanAll step (m ++ t) = a :: scanAll step t := by
  rcases m with _ | ⟨c, cs⟩
  · exact absurd rfl hne
  show scanLoop step ((c :: cs) ++ t).length ((c :: cs) ++ t) =
    a :: scanAll step t
  rw [show ((c :: cs) ++ t : List Char) = c :: (cs ++ t) from rfl] at hm ⊢
  rw [show (c :: (cs ++ t)).length = (cs ++ t).length + 1 from by simp]
  simp only [scanLoop, hm]
  congr 1
  have hmax : max (c :: cs).length 1 = (c :: cs).length := by
    simp only [List.length_cons]
    omega
  rw [hmax]
  have hdrop : (c :: (cs ++ t)).drop (c :: cs).length = t := by
    rw [show (c :: (cs ++ t) : List Char) = (c :: cs) ++ t from rfl]
    exact List.drop_left (c :: cs) t
  rw [hdrop]
  exact scanAll_eq_scanLoop step (by rw [List.length_append]; omega)

/-! ### Data model (`src/types`) -/

inductive CheckStatus
  | success
  | warning
  | error
deriving DecidableEq

structure CheckResult where
  status : CheckStatus
  message : String
  details : Option String := none
  location : Option String := none
deriving DecidableEq

structure CompatibilityReport where
  fileName : String
  fileSize : Nat
  lastModified : Int
  results : List CheckResult
  totalIssues : Nat
  isCompatible : Bool
deriving DecidableEq

/-- The in-memory file handle: name, raw byte content (`file.size` is
the byte count) and modification timestamp. -/
structure FileInfo where
  name : String
  bytes : List Nat
  lastModified : Int
deriving DecidableEq

def FileInfo.size (f : FileInfo) : Nat := f.bytes.length

/-! ### Deep structural analysis (`excelChecker.ts` 9–127) -/

/-- `bytes[i] === v` (JS indexing past the end yields `undefined`,
which compares unequal to every byte value). -/
def byteAt (bytes : List Nat) (i : Nat) (v : Nat) : Bool :=
  bytes[i]? == some v

def hasValidXlsxSignature (bytes : List Nat) : Bool :=
  bytes.length ≥ 4 &&
  byteAt bytes 0 0x50 && byteAt bytes 1 0x4B &&
  byteAt bytes 2 0x03 && byteAt bytes 3 0x04

def hasValidXlsSignature (bytes : List Nat) : Bool :=
  bytes.length ≥ 8 &&
  byteAt bytes 0 0xD0 && byteAt bytes 1 0xCF &&
  byteAt bytes 2 0x11 && byteAt bytes 3 0xE0

/-- The backward scan for the end-of-central-directory signature
`50 4B 05 06`, iterating `i` from `length - 22` down to `0` (so no
iterations at all when the buffer is shorter than 22 bytes, and offsets
above `length - 22` are never inspected). -/
def hasCentralDir (bytes : List Nat) : Bool :=
  if bytes.length < 22 then false
  else
    (List.range (bytes.length - 21)).any fun i =>
      byteAt bytes i 0x50 && byteAt bytes (i + 1) 0x4B &&
      byteAt bytes (i + 2) 0x05 && byteAt bytes (i + 3) 0x06

/-- JS `array.includes(v, from)`: a negative `from` counts from the end
of the array and clamps at 0. -/
def jsIncludesFrom (bytes : List Nat) (v : Nat) (fromIdx : Int) : Bool :=
  let start : Int := if fromIdx < 0 then max ((bytes.length : Int) + fromIdx) 0 else fromIdx
  (bytes.drop start.toNat).contains v

/-- JS `s.endsWith(suffix)`. -/
def jsEndsWith (s suffix : String) : Bool :=
  suffix.toList.isSuffixOf s.toList

def requiredComponents : List String :=
  ["[Content_Types].xml", "workbook.xml", "sheet", "styles.xml", "sharedStrings"]

/-- Format-detection block of `performDeepExcelAnalysis` (lines
24–49): invalid-signature report and foreign-format sniffing. -/
def deepSignatureIssues (bytes : List Nat) : List String :=
  if !hasValidXlsxSignature bytes && !hasValidXlsSignature bytes then
    "File does not have a valid Excel signature." ::
    (if bytes.length ≥ 4 then
      if byteAt bytes 0 0x25 && byteAt bytes 1 0x50 &&
          byteAt bytes 2 0x44 && byteAt bytes 3 0x46 then
        ["The file appears to be a PDF file with an Excel extension."]
      else if byteAt bytes 0 0xFF && byteAt bytes 1 0xD8 && byteAt bytes 2 0xFF then
        ["The file appears to be a JPEG image with an Excel extension."]
      else if byteAt bytes 0 0x89 && byteAt bytes 1 0x50 &&
          byteAt bytes 2 0x4E && byteAt bytes 3 0x47 then
        ["The file appears to be a PNG image with an Excel extension."]
      else if hasValidXlsxSignature bytes && bytes.length > 100 then
        -- unreachable (the XLSX signature is absent in this branch); kept from the source
        let textSample := utf8Decode (bytes.take 1000)
        if !textIncludes textSample "workbook.xml".toList &&
            !textIncludes textSample "[Content_Types].xml".toList then
          ["The file is a ZIP archive but does not appear to be a valid Office Open XML document."]
        else []
      else []
    else [])
  else []

/-- Excel-format identification block of `performDeepExcelAnalysis`
(lines 52–101): ZIP-structure probing for packaged-XML buffers and the
XLS-signature report.  The `try` around the ZIP analysis is not
modelled because its body (pure scanning and decoding) cannot throw. -/
def deepFormatIssues (fileName : String) (bytes : List Nat) : List String :=
  if hasValidXlsxSignature bytes then
    "File has a valid XLSX/ZIP signature." ::
    ((if !hasCentralDir bytes then
        ["ZIP Central Directory is missing or corrupt.",
         "This indicates the file was not properly closed when saved or was truncated."]
      else []) ++
     (let textSample := utf8Decode (bytes.take 3000)
      let missing := requiredComponents.filter fun comp =>
        !textIncludes textSample comp.toList
      if missing.length > 0 then
        ("Missing essential XLSX components: " ++ String.intercalate ", " missing) ::
        (if missing.contains "[Content_Types].xml" then
          ["Missing [Content_Types].xml indicates severe corruption."]
        else [])
      else []))
  else if hasValidXlsSignature bytes then
    "File has a valid binary XLS (BIFF) format signature." ::
    (if jsEndsWith fileName ".xlsx" then
      ["The file is in the older XLS format but has an .xlsx extension. This mismatch can cause compatibility issues."]
    else [])
  else []

/-- Size-consistency block of `performDeepExcelAnalysis` (lines
103–111). -/
def deepSizeIssues (bytes : List Nat) : List String :=
  if bytes.length < 2000 && bytes.length > 100 then
    "File size is suspiciously small for a functional Excel workbook." ::
    (if hasValidXlsxSignature bytes &&
        !jsIncludesFrom bytes 0x50 ((bytes.length : Int) - 100) then
      ["File appears to be truncated (premature end of file)."]
    else [])
  else []

/-- Password-protection block of `performDeepExcelAnalysis` (lines
113–125). -/
def deepPasswordIssues (bytes : List Nat) : List String :=
  if bytes.length > 500 then
    let textSample := utf8Decode (bytes.take 2000)
    if textIncludes textSample "EncryptedPackage".toList ||
        textIncludes textSample "encryption".toList ||
        textIncludes textSample "EncryptionInfo".toList ||
        textIncludes textSample "StrongEncryptionDataSpace".toList then
      ["File appears to be password protected or encrypted.",
       "Password-protected files cannot be analyzed without the correct password."]
    else []
  else []

/-- `performDeepExcelAnalysis` (excelChecker.ts 9–127).  The source's
sequence of `issues.push` calls across its four top-level blocks is
modelled as list concatenation. -/
def performDeepExcelAnalysis (fileName : String) (bytes : List Nat) : List String :=
  deepSignatureIssues bytes ++ deepFormatIssues fileName bytes ++
  deepSizeIssues bytes ++ deepPasswordIssues bytes

/-! ### Corruption classification (`excelChecker.ts` 134–214) -/

/-- Stage 1 of `analyzeCorruptedExcel` (lines 140–159): ordered
substring matching on the parser error text; the first match supplies a
fixed pair of issue lines and remediation lines. -/
def classifyError (errorMsg : String) : List String × List String :=
  if textIncludes errorMsg.toList "Unsupported ZIP Compression method NaN".toList then
    (["The file uses an unsupported compression method (NaN).",
      "This typically happens with Excel files saved in very old versions or with non-standard tools."],
     ["Try opening the file in Microsoft Excel and using \"Save As\" to create a new XLSX file.",
      "If the original file cannot be opened, try a file recovery tool like \"Office File Recovery\"."])
  else if textIncludes errorMsg.toList "Local File Header signature not found".toList then
    (["ZIP file structure is invalid - Local File Header signature missing.",
      "This suggests the file has been truncated or corrupted during transfer."],
     ["Request the original file again if it was shared with you.",
      "Check if your antivirus software might be corrupting the file during download."])
  else if textIncludes errorMsg.toList "End of Central Directory Record not found".toList then
    (["ZIP file structure is invalid - End of Central Directory Record missing.",
      "This suggests the file is incomplete or was not properly finalized when saved."],
     ["Try using a ZIP repair tool to fix the file structure.",
      "If possible, try to recreate the Excel file from the source."])
  else if textIncludes errorMsg.toList "incorrect header check".toList then
    (["ZIP compression header is invalid or corrupted.",
      "This often happens when file transfers are interrupted or when files are corrupted in storage."],
     ["Try downloading the file again or requesting a new copy."])
  else ([], [])

/-- Stage 2 of `analyzeCorruptedExcel` (lines 166–185): additional
remediation lines keyed on keywords in the deep-analysis findings. -/
def stage2Recommendations (deepResults : List String) : List String :=
  (if deepResults.any (fun r => textIncludes r.toList "XLS format".toList) then
    ["This appears to be a binary XLS file. Try renaming it with .xls extension and opening in Excel."]
   else []) ++
  (if deepResults.any (fun r => textIncludes r.toList "password protected".toList) then
    ["You need the original password to open this file. Contact the file creator for the password."]
   else []) ++
  (if deepResults.any (fun r => textIncludes r.toList "truncated".toList) then
    ["The file appears to be incomplete. Try to obtain a complete copy of the file."]
   else []) ++
  (if deepResults.any (fun r => textIncludes r.toList "ZIP Central Directory is missing".toList) then
    ["Try using a ZIP repair tool like \"ZipRepair\" or \"DiskInternals ZIP Repair\" to rebuild the central directory."]
   else []) ++
  (if deepResults.any (fun r => textIncludes r.toList "Missing essential XLSX components".toList) then
    ["The internal structure of the Excel file is damaged. Try Excel's built-in repair feature by opening Excel first, then using File > Open and selecting \"Open and Repair\"."]
   else [])

/-- The issue list accumulated by `analyzeCorruptedExcel`: stage-1
issues, then the deep-analysis findings, then (only if nothing at all
was found) the generic fallback. -/
def analyzeIssues (f : FileInfo) (errorMsg : String) : List String :=
  let deep := performDeepExcelAnalysis f.name f.bytes
  let issues := (classifyError errorMsg).1 ++ deep
  if issues.length = 0 then
    issues ++
      ["Unable to determine the exact corruption issue.",
       "Raw error: " ++ errorMsg,
       "The file might be corrupted, password protected, or use an unsupported format."]
  else issues

/-- The remediation list accumulated by `analyzeCorruptedExcel`:
stage-1 remediation, then stage-2 additions, then (only if no issue at
all was found) the generic fallback. -/
def analyzeRecommendations (f : FileInfo) (errorMsg : String) : List String :=
  let deep := performDeepExcelAnalysis f.name f.bytes
  let issues := (classifyError errorMsg).1 ++ deep
  let recs := (classifyError errorMsg).2 ++ stage2Recommendations deep
  if issues.length = 0 then
    recs ++
      ["Try using Microsoft Excel's built-in repair feature.",
       "If the file is crucial, consider using a commercial Excel recovery tool."]
  else recs

/-- `(file.size / 1024).toFixed(2)`, modelled as exact rounding to
hundredths (which agrees with `toFixed` away from representation
boundary cases; no theorem depends on this footer). -/
def sizeKB (size : Nat) : String :=
  let hundredths := (size * 100 + 512) / 1024
  toString (hundredths / 100) ++ "." ++
    (if hundredths % 100 < 10 then "0" else "") ++ toString (hundredths % 100)

/-- `new Date(t).toLocaleString()` is locale- and timezone-dependent;
modelled as the decimal timestamp (no theorem depends on its format). -/
def jsToLocaleString (t : Int) : String := toString t

/-- `analyzeCorruptedExcel` (excelChecker.ts 134–214): the serialized
three-section diagnostics report. -/
def analyzeCorruptedExcel (f : FileInfo) (errorMsg : String) : String :=
  let report :=
    ["=== ISSUE DETAILS ==="] ++ analyzeIssues f errorMsg ++
    [""] ++
    ["=== REPAIR RECOMMENDATIONS ==="] ++ analyzeRecommendations f errorMsg ++
    [""] ++
    ["=== TECHNICAL DETAILS ===",
     "File name: " ++ f.name,
     "File size: " ++ sizeKB f.size ++ " KB",
     "Last modified: " ++ jsToLocaleString f.lastModified]
  String.intercalate "\n" report

/-! ### Helper lemmas about byte access -/

theorem take4_of_getElem {w : List Nat} {a b c d : Nat}
    (h0 : w[0]? = some a) (h1 : w[1]? = some b)
    (h2 : w[2]? = some c) (h3 : w[3]? = some d) :
    w.take 4 = [a, b, c, d] := by
  rcases w with _ | ⟨x0, _ | ⟨x1, _ | ⟨x2, _ | ⟨x3, rest⟩⟩⟩⟩ <;>
    simp_all

theorem getElem_of_take4 {w : List Nat} {a b c d : Nat}
    (h : w.take 4 = [a, b, c, d]) :
    w[0]? = some a ∧ w[1]? = some b ∧ w[2]? = some c ∧
      w[3]? = some d ∧ 4 ≤ w.length := by
  rcases w with _ | ⟨x0, _ | ⟨x1, _ | ⟨x2, _ | ⟨x3, rest⟩⟩⟩⟩ <;>
    simp_all

/-- Four consecutive in-range byte reads produce an occurrence of the
4-byte sequence somewhere in the buffer. -/
theorem infix_of_byteAt {bytes : List Nat} {i a b c d : Nat}
    (h0 : byteAt bytes i a = true) (h1 : byteAt bytes (i + 1) b = true)
    (h2 : byteAt bytes (i + 2) c = true) (h3 : byteAt bytes (i + 3) d = true) :
    [a, b, c, d] <:+: bytes := by
  simp only [byteAt, beq_iff_eq] at h0 h1 h2 h3
  have hd0 : (bytes.drop i)[0]? = some a := by
    rw [List.getElem?_drop]; simpa using h0
  have hd1 : (bytes.drop i)[1]? = some b := by
    rw [List.getElem?_drop]; simpa using h1
  have hd2 : (bytes.drop i)[2]? = some c := by
    rw [List.getElem?_drop]; simpa using h2
  have hd3 : (bytes.drop i)[3]? = some d := by
    rw [List.getElem?_drop]; simpa using h3
  have htake : (bytes.drop i).take 4 = [a, b, c, d] :=
    take4_of_getElem hd0 hd1 hd2 hd3
  have hpre : [a, b, c, d] <+: bytes.drop i := ⟨(bytes.drop i).drop 4, by
    rw [← htake]; exact List.take_append_drop 4 (bytes.drop i)⟩
  exact hpre.isInfix.trans (List.drop_suffix i bytes).isInfix

/-! ### Claims C5, C7, C8 (deep structural analysis) -/

/-- C5: a buffer whose first four bytes are `50 4B 03 04` and which
contains no occurrence of `50 4B 05 06` at any offset makes the
structural prober record "ZIP Central Directory is missing or corrupt."
immediately followed by the truncation/not-finalized inference, for
buffers of any length (the model is total, so in particular nothing
throws for buffers shorter than 22 bytes). -/
theorem c5_central_directory_missing (fileName : String) (bytes : List Nat)
    (hsig : bytes.take 4 = [0x50, 0x4B, 0x03, 0x04])
    (hno : ¬ [0x50, 0x4B, 0x05, 0x06] <:+: bytes) :
    ["ZIP Central Directory is missing or corrupt.",
     "This indicates the file was not properly closed when saved or was truncated."] <:+:
      performDeepExcelAnalysis fileName bytes := by
  obtain ⟨g0, g1, g2, g3, hlen⟩ := getElem_of_take4 hsig
  have hxlsx : hasValidXlsxSignature bytes = true := by
    simp [hasValidXlsxSignature, byteAt, g0, g1, g2, g3, hlen]
  have hcd : hasCentralDir bytes = false := by
    rcases hval : hasCentralDir bytes
    · rfl
    exfalso
    unfold hasCentralDir at hval
    split at hval
    · simp at hval
    · rw [List.any_eq_true] at hval
      obtain ⟨i, _, hi⟩ := hval
      have hsplit : ((byteAt bytes i 0x50 = true ∧ byteAt bytes (i + 1) 0x4B = true) ∧
          byteAt bytes (i + 2) 0x05 = true) ∧ byteAt bytes (i + 3) 0x06 = true := by
        simpa [Bool.and_eq_true] using hi
      exact hno (infix_of_byteAt hsplit.1.1.1 hsplit.1.1.2 hsplit.1.2 hsplit.2)
  have hsig0 : deepSignatureIssues bytes = [] := by
    unfold deepSignatureIssues
    rw [hxlsx]
    simp
  have hfmt : ["ZIP Central Directory is missing or corrupt.",
      "This indicates the file was not properly closed when saved or was truncated."] <:+:
      deepFormatIssues fileName bytes := by
    unfold deepFormatIssues
    rw [hxlsx, hcd]
    simp only [Bool.not_false, if_true, Bool.false_eq_true]
    refine List.IsInfix.trans ?_ ((List.suffix_cons _ _).isInfix)
    exact (List.prefix_append _ _).isInfix
  unfold performDeepExcelAnalysis
  rw [hsig0, List.nil_append, List.append_assoc]
  exact hfmt.trans ((List.prefix_append _ _).isInfix)

theorem missing_components_ne_truncated (x : String) :
    "Missing essential XLSX components: " ++ x ≠
      "File appears to be truncated (premature end of file)." := by
  intro hcontra
  have h2 : ("Missing essential XLSX components: " ++ x).toList.head? =
      ("File appears to be truncated (premature end of file)." : String).toList.head? := by
    rw [hcontra]
  rw [show ("Missing essential XLSX components: " ++ x).toList =
    ("Missing essential XLSX components: " : String).toList ++ x.toList from rfl] at h2
  rw [show (("Missing essential XLSX components: " : String).toList ++ x.toList).head? =
    some 'M' from rfl] at h2
  rw [show ("File appears to be truncated (premature end of file)." : String).toList.head? =
    some 'F' from rfl] at h2
  simp at h2

theorem truncated_not_in_signature (bytes : List Nat) :
    "File appears to be truncated (premature end of file)." ∉
      deepSignatureIssues bytes := by
  simp only [deepSignatureIssues]
  split_ifs <;> decide

theorem truncated_not_in_password (bytes : List Nat) :
    "File appears to be truncated (premature end of file)." ∉
      deepPasswordIssues bytes := by
  simp only [deepPasswordIssues]
  split_ifs <;> decide

theorem truncated_not_in_format (fileName : String) (bytes : List Nat) :
    "File appears to be truncated (premature end of file)." ∉
      deepFormatIssues fileName bytes := by
  simp only [deepFormatIssues]
  split_ifs <;>
    first
      | decide
      | (intro hs
         rcases List.mem_cons.mp hs with hs | hs
         · exact absurd hs (by decide)
         · rcases List.mem_append.mp hs with hs | hs
           · exact absurd hs (by decide)
           · first
               | exact absurd hs (by decide)
               | (rcases List.mem_cons.mp hs with hs | hs
                  · exact absurd hs.symm (missing_components_ne_truncated _)
                  · exact absurd hs (by decide)))

/-- The truncation finding is only ever recorded inside the
size-consistency block, whose guard restricts the buffer length to the
open interval (100, 2000). -/
theorem truncated_only_in_size_window (fileName : String) (bytes : List Nat)
    (h : "File appears to be truncated (premature end of file)." ∈
        performDeepExcelAnalysis fileName bytes) :
    100 < bytes.length ∧ bytes.length < 2000 := by
  simp only [performDeepExcelAnalysis, List.mem_append] at h
  rcases h with ((h | h) | h) | h
  · exact absurd h (truncated_not_in_signature bytes)
  · exact absurd h (truncated_not_in_format fileName bytes)
  · unfold deepSizeIssues at h
    split at h
    · next hcond =>
      have hc : bytes.length < 2000 ∧ bytes.length > 100 := by
        simpa [Bool.and_eq_true, decide_eq_true_eq] using hcond
      exact ⟨hc.2, hc.1⟩
    · simp at h
  · exact absurd h (truncated_not_in_password bytes)

/-- The 2000-byte counterexample buffer for C7: a valid packaged-XML
signature followed by zeros. -/
def c7buf : List Nat := [0x50, 0x4B, 0x03, 0x04] ++ List.replicate 1996 0

/-- C7 counterexample: the truncation heuristic is size-gated, not
applied "regardless of the buffer's total size".  A 2000-byte buffer
with a valid packaged-XML signature and no `0x50` byte anywhere in its
last 100 bytes satisfies the claim's hypothesis, yet the prober does
not record "File appears to be truncated (premature end of file).". -/
theorem c7_counterexample :
    c7buf.take 4 = [0x50, 0x4B, 0x03, 0x04] ∧
    (c7buf.drop (c7buf.length - 100)).contains 0x50 = false ∧
    "File appears to be truncated (premature end of file)." ∉
      performDeepExcelAnalysis "report.xlsx" c7buf := by
  have hlen : c7buf.length = 2000 := by
    unfold c7buf
    rw [List.length_append, List.length_replicate]
    norm_num
  refine ⟨?_, ?_, ?_⟩
  · rw [show (4 : Nat) = ([0x50, 0x4B, 0x03, 0x04] : List Nat).length from rfl]
    exact List.take_left ..
  · have hdrop : c7buf.drop (c7buf.length - 100) = List.replicate 100 0 := by
      rw [hlen]
      show (([0x50, 0x4B, 0x03, 0x04] : List Nat) ++ List.replicate 1996 0).drop 1900 =
        List.replicate 100 0
      rw [List.drop_append_eq_append_drop, List.drop_replicate,
        List.drop_eq_nil_of_le (by norm_num), List.nil_append]
      norm_num
    rw [hdrop]
    decide
  · intro h
    have hwin := truncated_only_in_size_window "report.xlsx" c7buf h
    omega

/-- C7 amended: for a packaged-XML-signed buffer whose length lies in
the suspicious-size window (strictly between 100 and 2000 bytes) and
which has no `0x50` byte in its last 100 bytes, the prober records the
truncation finding. -/
theorem c7_truncation_flag (fileName : String) (bytes : List Nat)
    (hlo : 100 < bytes.length) (hhi : bytes.length < 2000)
    (hsig : hasValidXlsxSignature bytes = true)
    (hno : jsIncludesFrom bytes 0x50 ((bytes.length : Int) - 100) = false) :
    "File appears to be truncated (premature end of file)." ∈
      performDeepExcelAnalysis fileName bytes := by
  have hsize : deepSizeIssues bytes =
      ["File size is suspiciously small for a functional Excel workbook.",
       "File appears to be truncated (premature end of file)."] := by
    unfold deepSizeIssues
    rw [hsig, hno]
    have hcond : (decide (bytes.length < 2000) && decide (bytes.length > 100)) = true := by
      simp [hlo, hhi]
    rw [hcond]
    simp
  unfold performDeepExcelAnalysis
  rw [hsize]
  simp

set_option maxRecDepth 4000 in
/-- Witness for `c7_truncation_flag`: a 150-byte buffer with the
packaged-XML signature and zeros elsewhere. -/
theorem c7_truncation_flag_witness :
    "File appears to be truncated (premature end of file)." ∈
      performDeepExcelAnalysis "report.xlsx"
        ([0x50, 0x4B, 0x03, 0x04] ++ List.replicate 146 0) :=
  c7_truncation_flag "report.xlsx" _ (by decide) (by decide) (by decide) (by decide)

/-- C8 counterexample: the foreign-format sniffing (and hence the JPEG
report) is gated behind `bytes.length >= 4`, so the classifier does not
report the JPEG message on a buffer of exactly 3 bytes `FF D8 FF` —
contrary to the claim that the 3-byte buffer is still classified. -/
theorem c8_counterexample :
    performDeepExcelAnalysis "image.xlsx" [0xFF, 0xD8, 0xFF] =
      ["File does not have a valid Excel signature."] ∧
    "The file appears to be a JPEG image with an Excel extension." ∉
      performDeepExcelAnalysis "image.xlsx" [0xFF, 0xD8, 0xFF] := by
  constructor
  · rfl
  · decide

/-- C8 amended: for buffers of length at least 4 whose first three
bytes are `FF D8 FF`, the signature classifier reports the JPEG
message (and no buffer makes the classifier throw — it is total). -/
theorem c8_jpeg_detected (fileName : String) (bytes : List Nat)
    (hlen : 4 ≤ bytes.length)
    (h0 : bytes[0]? = some 0xFF) (h1 : bytes[1]? = some 0xD8)
    (h2 : bytes[2]? = some 0xFF) :
    "The file appears to be a JPEG image with an Excel extension." ∈
      performDeepExcelAnalysis fileName bytes := by
  have hxlsx : hasValidXlsxSignature bytes = false := by
    simp [hasValidXlsxSignature, byteAt, h0]
  have hxls : hasValidXlsSignature bytes = false := by
    simp [hasValidXlsSignature, byteAt, h0]
  have hpdf : byteAt bytes 0 0x25 = false := by simp [byteAt, h0]
  have ja : byteAt bytes 0 0xFF = true := by simp [byteAt, h0]
  have jb : byteAt bytes 1 0xD8 = true := by simp [byteAt, h1]
  have jc : byteAt bytes 2 0xFF = true := by simp [byteAt, h2]
  have hsig : deepSignatureIssues bytes =
      ["File does not have a valid Excel signature.",
       "The file appears to be a JPEG image with an Excel extension."] := by
    unfold deepSignatureIssues
    rw [hxlsx, hxls, hpdf, ja, jb, jc]
    simp [hlen]
  unfold performDeepExcelAnalysis
  rw [hsig]
  simp

/-- Witness for `c8_jpeg_detected`: a 4-byte JPEG-signed buffer. -/
theorem c8_jpeg_detected_witness :
    "The file appears to be a JPEG image with an Excel extension." ∈
      performDeepExcelAnalysis "image.xlsx" [0xFF, 0xD8, 0xFF, 0xE0] :=
  c8_jpeg_detected "image.xlsx" _ (by decide) (by decide) (by decide) (by decide)

/-! ### Claim C4 (corruption classification) -/

/-- C4: when the parser error text contains "Unsupported ZIP
Compression method NaN", the diagnosis issue list is exactly the two
fixed unsupported-compression lines followed by the structural-prober
findings, and the remediation list is exactly the two fixed remediation
lines followed by the stage-2 additions derived from those findings —
remediation accumulates additively and is never replaced. -/
theorem c4_unsupported_compression (f : FileInfo) (errorMsg : String)
    (h : textIncludes errorMsg.toList
      "Unsupported ZIP Compression method NaN".toList = true) :
    analyzeIssues f errorMsg =
      ["The file uses an unsupported compression method (NaN).",
       "This typically happens with Excel files saved in very old versions or with non-standard tools."] ++
      performDeepExcelAnalysis f.name f.bytes ∧
    analyzeRecommendations f errorMsg =
      ["Try opening the file in Microsoft Excel and using \"Save As\" to create a new XLSX file.",
       "If the original file cannot be opened, try a file recovery tool like \"Office File Recovery\"."] ++
      stage2Recommendations (performDeepExcelAnalysis f.name f.bytes) := by
  have hc : classifyError errorMsg =
      (["The file uses an unsupported compression method (NaN).",
        "This typically happens with Excel files saved in very old versions or with non-standard tools."],
       ["Try opening the file in Microsoft Excel and using \"Save As\" to create a new XLSX file.",
        "If the original file cannot be opened, try a file recovery tool like \"Office File Recovery\"."]) := by
    unfold classifyError
    rw [h]
    simp
  constructor
  · unfold analyzeIssues
    rw [hc]
    simp
  · unfold analyzeRecommendations
    rw [hc]
    simp

/-- Witness for `c4_unsupported_compression` at a concrete file and
error text. -/
theorem c4_unsupported_compression_witness :
    analyzeIssues ⟨"report.xlsx", [0x00], 0⟩
        "Unsupported ZIP Compression method NaN" =
      ["The file uses an unsupported compression method (NaN).",
       "This typically happens with Excel files saved in very old versions or with non-standard tools."] ++
      performDeepExcelAnalysis "report.xlsx" [0x00] ∧
    analyzeRecommendations ⟨"report.xlsx", [0x00], 0⟩
        "Unsupported ZIP Compression method NaN" =
      ["Try opening the file in Microsoft Excel and using \"Save As\" to create a new XLSX file.",
       "If the original file cannot be opened, try a file recovery tool like \"Office File Recovery\"."] ++
      stage2Recommendations (performDeepExcelAnalysis "report.xlsx" [0x00]) :=
  c4_unsupported_compression ⟨"report.xlsx", [0x00], 0⟩ _ (by decide)

/-- Witness for `c5_central_directory_missing` at a concrete 4-byte
buffer. -/
theorem c5_central_directory_missing_witness :
    ["ZIP Central Directory is missing or corrupt.",
     "This indicates the file was not properly closed when saved or was truncated."] <:+:
      performDeepExcelAnalysis "report.xlsx" [0x50, 0x4B, 0x03, 0x04] :=
  c5_central_directory_missing "report.xlsx" _ (by decide) (by decide)

/-! ### First-match scanning (non-global regexes) -/

/-- First position at which `step` succeeds, scanning left to right
(the semantics of a non-global `RegExp.exec`). -/
def findFirst {α : Type} (step : List Char → Option α) : List Char → Option α
  | [] => step []
  | c :: cs => (step (c :: cs)).orElse fun _ => findFirst step cs

/-- One attempt of `/open(.*?)close/` at the start of `t`: succeeds when
the closing literal occurs after the opening one with no line
terminator in between (`.` does not match line terminators).  Returns
the capture and the total match length. -/
def lazyBetweenStep (openLit closeLit t : List Char) :
    Option (List Char × Nat) :=
  if openLit.isPrefixOf t then
    let r := t.drop openLit.length
    match findSub closeLit r with
    | some m =>
      if (r.take m).all (fun c => !(c = '\n' || c = '\r' ||
          c = Char.ofNat 0x2028 || c = Char.ofNat 0x2029)) then
        some (r.take m, openLit.length + m + closeLit.length)
      else none
    | none => none
  else none

/-- First match of `/open(.*?)close/` anywhere in `text`. -/
def lazyBetween (openLit closeLit text : List Char) : Option (List Char) :=
  (findFirst (lazyBetweenStep openLit closeLit) text).map Prod.fst

/-! ### Metadata salvager (`excelChecker.ts` 220–273) -/

/-- `extractBasicMetadata`: first-match property extraction plus the
sheet-name scan over the first 10000 bytes, in the source's insertion
order.  A key is present only when its pattern matched with a truthy
(non-empty) capture; the catch branch is not modelled because the body
(pure decoding and scanning) cannot throw. -/
def extractBasicMetadata (f : FileInfo) : List (String × String) :=
  let textSample := utf8Decode (f.bytes.take 10000)
  let grab : String → String → Option String := fun ol cl =>
    match lazyBetween ol.toList cl.toList textSample with
    | some v => if v ≠ [] then some (String.mk v) else none
    | none => none
  let creator := grab "dc:creator>" "</dc:creator"
  let modifiedBy := grab "cp:lastModifiedBy>" "</cp:lastModifiedBy"
  let created := grab "dcterms:created>" "</dcterms:created"
  let application := grab "Application>" "</Application"
  let sheetNames :=
    (scanAll (lazyBetweenStep "<sheet name=\"".toList ['"']) textSample).map
      fun v => String.mk v
  (match creator with | some v => [("creator", v)] | none => []) ++
  (match modifiedBy with | some v => [("lastModifiedBy", v)] | none => []) ++
  (match created with | some v => [("creationDate", v)] | none => []) ++
  (match application with | some v => [("application", v)] | none => []) ++
  (if sheetNames.length > 0 then
    [("sheets", String.intercalate ", " sheetNames),
     ("sheetCount", toString sheetNames.length)]
  else [])

/-! ### Parsed-model data (outputs of the external parser libraries) -/

/-- Outcome of `XLSX.utils.decode_range` on a worksheet's `!ref`
string (an external library call, modelled by its outcome). -/
inductive RefOutcome
  | ok (endRow endCol : Nat)
  | err
deriving DecidableEq

structure Worksheet where
  ref : Option RefOutcome
  /-- cell key ↦ formula text when the cell object has an `f` field -/
  cells : List (String × Option String)
deriving DecidableEq

structure NamedRange where
  name : String
deriving DecidableEq

/-- Model of the SheetJS parse result (the fields read by the checks). -/
structure WorkBook where
  sheetNames : List String
  sheets : List (String × Worksheet)
  vbaraw : Bool
  wbNames : Option (List NamedRange)
deriving DecidableEq

/-- `{ SheetNames: [], Sheets: {} }`, the stand-in used after a SheetJS
parse failure. -/
def emptyWorkBook : WorkBook := ⟨[], [], false, none⟩

/-- Model of one ExcelJS worksheet: the number of entries of its
`drawings` / `conditionalFormattingRules` arrays, when present. -/
structure ExcelJsSheet where
  drawings : Option Nat
  cfRules : Option Nat
deriving DecidableEq

structure ExcelJsWorkbook where
  sheets : List ExcelJsSheet
deriving DecidableEq

/-- `new ExcelJS.Workbook()`, the stand-in used after an ExcelJS parse
failure. -/
def emptyExcelJsWorkbook : ExcelJsWorkbook := ⟨[]⟩

/-- Outcomes of the two external parser calls (`XLSX.read` and
`ExcelJS.Workbook().xlsx.load`): a parsed model, or a thrown error
message. -/
structure ParseEnv where
  sheetJs : Except String WorkBook
  excelJs : Except String ExcelJsWorkbook

/-! ### Limit checks (`excelChecker.ts` 443–709) -/

def excelExtensions : List String := [".xlsx", ".xls", ".xlsm", ".xlsb"]

/-- `file.name.match(/\.(xlsx|xls|xlsm|xlsb)$/i)`. -/
def hasExcelExtension (name : String) : Bool :=
  excelExtensions.any fun ext => ext.toList.isSuffixOf (lowerAscii name.toList)

/-- `isValidExcelFile` (lines 426–438): extension pattern and the
128-byte minimum size, reading only the file's name and size. -/
def isValidExcelFile (f : FileInfo) : Bool :=
  hasExcelExtension f.name && decide (f.size ≥ 128)

/-- Fixed-point rendering of a value given in hundredths, as produced
by `toFixed(2)`. -/
def fixed2 (hundredths : Nat) : String :=
  toString (hundredths / 100) ++ "." ++
    (if hundredths % 100 < 10 then "0" else "") ++ toString (hundredths % 100)

/-- `(file.size / (1024*1024)).toFixed(2)`, modelled as exact rounding
to hundredths. -/
def sizeMB (size : Nat) : String :=
  fixed2 ((size * 100 + 524288) / 1048576)

def checkFileFormat (f : FileInfo) : List CheckResult :=
  if !hasExcelExtension f.name then
    [⟨.error, "File does not have a valid Excel extension",
      some "Valid extensions are .xlsx, .xls, .xlsm, and .xlsb", none⟩]
  else if f.size > 100 * 1024 * 1024 then
    [⟨.warning, "File size exceeds recommended limit",
      some ("The file is " ++ sizeMB f.size ++
        "MB. Excel works best with files under 100MB."), none⟩]
  else
    [⟨.success, "File size is within recommended limits", none, none⟩]

/-- Forbidden sheet-name characters `\\ / * ? [ ] :`. -/
def hasForbiddenSheetChar (name : String) : Bool :=
  name.toList.any fun c => c ∈ ['\\', '/', '*', '?', '[', ']', ':']

/-- `checkWorkbookStructure` (lines 473–523).  The guards for a
missing/non-array `SheetNames` and non-string names are vacuous in the
typed model and are not represented. -/
def checkWorkbookStructure (wb : WorkBook) : List CheckResult :=
  (if wb.sheetNames.length > 255 then
    [⟨.error, "Too many worksheets",
      some ("The workbook contains " ++ toString wb.sheetNames.length ++
        " worksheets. Excel supports a maximum of 255."), none⟩]
  else
    [⟨.success, "Worksheet count is within Excel limits", none, none⟩]) ++
  (wb.sheetNames.flatMap fun sheetName =>
    (if sheetName.length > 31 then
      [⟨.error, "Sheet name too long",
        some ("The sheet \"" ++ sheetName ++
          "\" has a name longer than 31 characters, which is not supported by Excel."),
        some sheetName⟩]
    else []) ++
    (if hasForbiddenSheetChar sheetName then
      [⟨.error, "Invalid characters in sheet name",
        some ("The sheet \"" ++ sheetName ++
          "\" contains characters not supported by Excel: \\ / * ? [ ] :"),
        some sheetName⟩]
    else []))

/-- `checkCellFormats` (lines 528–578). -/
def checkCellFormats (wb : WorkBook) : List CheckResult :=
  wb.sheetNames.flatMap fun sheetName =>
    match wb.sheets.lookup sheetName with
    | none => []
    | some ws =>
      match ws.ref with
      | none => []
      | some (.ok endRow endCol) =>
        (if endRow > 1048575 then
          [⟨.error, "Too many rows",
            some ("Sheet \"" ++ sheetName ++
              "\" contains data beyond row 1,048,576, which is Excel's limit."),
            some sheetName⟩]
        else []) ++
        (if endCol > 16383 then
          [⟨.error, "Too many columns",
            some ("Sheet \"" ++ sheetName ++
              "\" contains data beyond column XFD (16,384), which is Excel's limit."),
            some sheetName⟩]
        else [])
      | some .err =>
        [⟨.warning, "Unable to check cell limits",
          some ("Could not analyze cell range for sheet \"" ++ sheetName ++ "\""),
          some sheetName⟩]

/-- `checkFormulas` (lines 583–616). -/
def checkFormulas (wb : WorkBook) : List CheckResult :=
  wb.sheetNames.flatMap fun sheetName =>
    match wb.sheets.lookup sheetName with
    | none => []
    | some ws =>
      ws.cells.flatMap fun kv =>
        if kv.1.toList.head? = some '!' then []
        else
          match kv.2 with
          | some formula =>
            if formula.length > 8192 then
              [⟨.error, "Formula too long",
                some ("Formula in " ++ sheetName ++ "!" ++ kv.1 ++
                  " exceeds Excel's maximum length of 8,192 characters."),
                some (sheetName ++ "!" ++ kv.1)⟩]
            else []
          | none => []

/-- `checkCharts` (lines 621–636). -/
def checkCharts (ewb : ExcelJsWorkbook) : List CheckResult :=
  let chartCount := (ewb.sheets.map fun ws => ws.drawings.getD 0).sum
  if chartCount > 0 then
    [⟨.success, "Workbook contains " ++ toString chartCount ++ " chart(s)",
      none, none⟩]
  else []

/-- `checkMacros` (lines 641–650). -/
def checkMacros (wb : WorkBook) : List CheckResult :=
  if wb.vbaraw then
    [⟨.warning, "Workbook contains VBA macros",
      some "VBA macros may have compatibility issues between different Excel versions.",
      none⟩]
  else []

/-- `checkNamedRanges` (lines 655–679). -/
def checkNamedRanges (wb : WorkBook) : List CheckResult :=
  match wb.wbNames with
  | none => []
  | some names =>
    if names.length > 0 then
      (names.flatMap fun nr =>
        if nr.name ≠ "" ∧ nr.name.length > 255 then
          [⟨.error, "Named range name too long",
            some ("The named range \"" ++ nr.name ++
              "\" exceeds Excel's 255 character limit."), none⟩]
        else []) ++
      [⟨.success, "Found " ++ toString names.length ++ " named range(s)",
        none, none⟩]
    else []

/-- `checkConditionalFormatting` (lines 684–709). -/
def checkConditionalFormatting (ewb : ExcelJsWorkbook) : List CheckResult :=
  let cfCount := (ewb.sheets.map fun ws => ws.cfRules.getD 0).sum
  if cfCount > 0 then
    if cfCount > 64000 then
      [⟨.error, "Too many conditional formatting rules",
        some ("The workbook contains " ++ toString cfCount ++
          " conditional formatting rules. Excel's limit is 64,000."), none⟩]
    else
      [⟨.success, "Found " ++ toString cfCount ++
        " conditional formatting rule(s)", none, none⟩]
  else []

/-- The fixed battery of limit checks, in the call order of lines
383–390. -/
def runChecks (f : FileInfo) (wb : WorkBook) (ewb : ExcelJsWorkbook) :
    List CheckResult :=
  checkFileFormat f ++ checkWorkbookStructure wb ++ checkCellFormats wb ++
  checkFormulas wb ++ checkCharts ewb ++ checkMacros wb ++
  checkNamedRanges wb ++ checkConditionalFormatting ewb

/-! ### The analysis entry point (`excelChecker.ts` 279–421) -/

/-- Observable steps of one `checkExcelCompatibility` run, used to
state ordering properties (which components read the file's bytes, and
when the format check rejects). -/
inductive AnalysisEvent
  | metadataBytesRead
  | formatCheck (passed : Bool)
  | mainBytesRead
  | sheetJsParse
  | deepAnalysisBytesRead
  | excelJsParse
  | checksRun
deriving DecidableEq

/-- Events that read the file's byte content. -/
def AnalysisEvent.readsFileBytes : AnalysisEvent → Bool
  | metadataBytesRead => true
  | mainBytesRead => true
  | deepAnalysisBytesRead => true
  | _ => false

/-- Result of the `try` block: normal completion with the accumulated
`results`, or a thrown error together with the results pushed before
the throw (the `results` array outlives the throw). -/
inductive BodyOutcome
  | ok (results : List CheckResult)
  | thrown (collected : List CheckResult) (errMsg : String)
deriving DecidableEq

/-- `'Recovered Metadata:\n' + ...` (lines 294–297). -/
def metadataText (md : List (String × String)) : String :=
  "Recovered Metadata:\n" ++
    String.intercalate "\n" (md.map fun kv => kv.1 ++ ": " ++ kv.2)

/-- `errorMsg.includes('ZIP') || errorMsg.includes('NaN') ||
errorMsg.includes('compression')`. -/
def isZipErrorMessage (msg : String) : Bool :=
  textIncludes msg.toList "ZIP".toList ||
  textIncludes msg.toList "NaN".toList ||
  textIncludes msg.toList "compression".toList

/-- The wrapped message thrown for ZIP-compression parse failures
(lines 336–340 and 366–370). -/
def corruptionThrowMessage (f : FileInfo) (errorMsg mdText : String) : String :=
  "Unsupported ZIP compression method or corrupted Excel file. Please try resaving the file in a newer version of Excel.\n\nDetailed diagnostics:\n" ++
  (if mdText ≠ "" then
    analyzeCorruptedExcel f errorMsg ++ "\n\n=== RECOVERED METADATA ===\n" ++ mdText
  else analyzeCorruptedExcel f errorMsg)

/-- Second parse attempt and the check battery (lines 351–403). -/
def excelJsStage (f : FileInfo) (env : ParseEnv) (wb : WorkBook)
    (results : List CheckResult) (events : List AnalysisEvent)
    (mdText : String) : List AnalysisEvent × BodyOutcome :=
  match env.excelJs with
  | .error errMsg =>
    if isZipErrorMessage errMsg && wb.sheetNames.length == 0 then
      (events ++ [.excelJsParse, .deepAnalysisBytesRead],
       .thrown results (corruptionThrowMessage f errMsg mdText))
    else
      (events ++ [.excelJsParse, .checksRun],
       .ok ((results ++
         [⟨.error, "Failed to parse Excel file with ExcelJS", some errMsg, none⟩]) ++
         runChecks f wb emptyExcelJsWorkbook))
  | .ok ewb =>
    (events ++ [.excelJsParse, .checksRun],
     .ok (results ++ runChecks f wb ewb))

/-- The body of the `try` in `checkExcelCompatibility` (lines 288–403),
with the mutable `results` array threaded explicitly and an event trace
of byte reads, the format check, and the parser calls. -/
def tryBody (f : FileInfo) (env : ParseEnv) :
    List AnalysisEvent × BodyOutcome :=
  let md := extractBasicMetadata f
  let mdText := if md ≠ [] then metadataText md else ""
  let results0 : List CheckResult :=
    if md ≠ [] then
      [⟨.success, "Successfully extracted some file metadata",
        some (metadataText md), none⟩]
    else []
  if !isValidExcelFile f then
    ([.metadataBytesRead, .formatCheck false],
     .thrown results0 "Invalid or corrupted Excel file format")
  else
    match env.sheetJs with
    | .error errMsg =>
      if isZipErrorMessage errMsg then
        ([.metadataBytesRead, .formatCheck true, .mainBytesRead,
          .sheetJsParse, .deepAnalysisBytesRead],
         .thrown results0 (corruptionThrowMessage f errMsg mdText))
      else
        excelJsStage f env emptyWorkBook
          (results0 ++
            [⟨.error, "Failed to parse Excel file with SheetJS", some errMsg, none⟩])
          [.metadataBytesRead, .formatCheck true, .mainBytesRead, .sheetJsParse]
          mdText
    | .ok wb =>
      excelJsStage f env wb results0
        [.metadataBytesRead, .formatCheck true, .mainBytesRead, .sheetJsParse]
        mdText

/-- `checkExcelCompatibility` (lines 279–421) together with its event
trace: the `try` body feeds the normal return (lines 392–403), the
`catch` appends a single error-status result and returns an
incompatible report with `totalIssues = results.length`
(lines 404–420). -/
def checkExcelCompatibilityT (f : FileInfo) (env : ParseEnv) :
    List AnalysisEvent × CompatibilityReport :=
  match tryBody f env with
  | (events, .ok results) =>
    (events,
     { fileName := f.name, fileSize := f.size, lastModified := f.lastModified,
       results := results,
       totalIssues := (results.filter fun r => !(r.status == .success)).length,
       isCompatible := !(results.any fun r => r.status == .error) })
  | (events, .thrown collected errMsg) =>
    let results := collected ++
      [⟨.error, "Failed to process Excel file", some errMsg, none⟩]
    (events,
     { fileName := f.name, fileSize := f.size, lastModified := f.lastModified,
       results := results,
       totalIssues := results.length,
       isCompatible := false })

/-- The analysis entry point, as seen by callers. -/
def checkExcelCompatibility (f : FileInfo) (env : ParseEnv) :
    CompatibilityReport :=
  (checkExcelCompatibilityT f env).2

/-! ### Claims C1, C2, C6 (analysis entry point) -/

/-- A 50-byte file named `report.xlsx` whose content contains a
recoverable `dc:creator` fragment: metadata extraction succeeds, then
the format check rejects the file for being below the 128-byte
minimum. -/
def sampleCreatorFile : FileInfo :=
  ⟨"report.xlsx",
   "dc:creator>Bob</dc:creator".toList.map Char.toNat ++
     List.replicate 24 0x20, 0⟩

/-- Parser outcomes for runs that never reach the parsers. -/
def sampleParseEnv : ParseEnv := ⟨.ok emptyWorkBook, .ok emptyExcelJsWorkbook⟩

/-- C1 counterexample: on the catastrophic-failure path the report sets
`totalIssues = results.length`, which counts the success-status
metadata entry as an issue: for the 50-byte creator file the report has
`totalIssues = 2` but only one non-success result. -/
theorem c1_counterexample :
    (checkExcelCompatibility sampleCreatorFile sampleParseEnv).totalIssues = 2 ∧
    ((checkExcelCompatibility sampleCreatorFile sampleParseEnv).results.filter
       fun r => !(r.status == .success)).length = 1 := by
  exact ⟨rfl, rfl⟩

/-- C1 amended: `isCompatible` is true exactly when no result has
status `error` on both paths, and `totalIssues` counts the non-success
results on the normal path but equals the full length of `results`
(including any success-status metadata entry) on the
catastrophic-failure path. -/
theorem c1_report_aggregates (f : FileInfo) (env : ParseEnv) :
    ((checkExcelCompatibility f env).isCompatible = true ↔
      ∀ r ∈ (checkExcelCompatibility f env).results, r.status ≠ .error) ∧
    (checkExcelCompatibility f env).totalIssues =
      (match (tryBody f env).2 with
       | .ok _ =>
         ((checkExcelCompatibility f env).results.filter
            fun r => !(r.status == .success)).length
       | .thrown _ _ => (checkExcelCompatibility f env).results.length) := by
  rcases htb : tryBody f env with ⟨events, outcome⟩
  unfold checkExcelCompatibility checkExcelCompatibilityT
  rw [htb]
  cases outcome with
  | ok results =>
    constructor
    · simp [List.any_eq_true]
    · rfl
  | thrown collected errMsg =>
    constructor
    · simp only [Bool.false_eq_true, false_iff, not_forall]
      exact ⟨⟨.error, "Failed to process Excel file", some errMsg, none⟩,
        by simp, by simp⟩
    · rfl

/-- C2: whenever the `try` body throws, the entry point still returns a
report; the exception is converted into a single appended error-status
result and the report is marked incompatible.  (The model is a total
function, so no exception ever propagates to the caller.) -/
theorem c2_catch_converts (f : FileInfo) (env : ParseEnv)
    (collected : List CheckResult) (errMsg : String)
    (h : (tryBody f env).2 = .thrown collected errMsg) :
    (checkExcelCompatibility f env).results =
      collected ++
        [⟨.error, "Failed to process Excel file", some errMsg, none⟩] ∧
    (checkExcelCompatibility f env).isCompatible = false := by
  rcases htb : tryBody f env with ⟨events, outcome⟩
  rw [htb] at h
  unfold checkExcelCompatibility checkExcelCompatibilityT
  rw [htb]
  cases outcome with
  | ok results => simp at h
  | thrown c m =>
    simp only [BodyOutcome.thrown.injEq] at h
    rcases h with ⟨h1, h2⟩
    subst h1
    subst h2
    exact ⟨rfl, rfl⟩

/-- Witness for `c2_catch_converts`: the 50-byte creator file throws
"Invalid or corrupted Excel file format" after its metadata success
entry was pushed. -/
theorem c2_catch_converts_witness :
    (checkExcelCompatibility sampleCreatorFile sampleParseEnv).results =
      [⟨.success, "Successfully extracted some file metadata",
        some "Recovered Metadata:\ncreator: Bob", none⟩] ++
        [⟨.error, "Failed to process Excel file",
          some "Invalid or corrupted Excel file format", none⟩] ∧
    (checkExcelCompatibility sampleCreatorFile sampleParseEnv).isCompatible = false :=
  c2_catch_converts sampleCreatorFile sampleParseEnv _ _ rfl

/-- C6 counterexample: the metadata salvager reads the file's bytes
before the format check rejects the 50-byte `report.xlsx`, so the
rejection is not free of byte-level inspection: the trace starts with a
byte-reading event and only then records the failed format check. -/
theorem c6_counterexample :
    (checkExcelCompatibilityT sampleCreatorFile sampleParseEnv).1 =
      [.metadataBytesRead, .formatCheck false] ∧
    AnalysisEvent.readsFileBytes .metadataBytesRead = true := by
  exact ⟨rfl, rfl⟩

/-- C6 amended: when the format check rejects a file, the run performs
no parser work at all — the trace is exactly the metadata byte read
followed by the failed format check, so the rejection happens before
`XLSX.read`/`ExcelJS` ever see the buffer (but after the metadata
salvager's byte read). -/
theorem c6_rejection_before_parsing (f : FileInfo) (env : ParseEnv)
    (h : isValidExcelFile f = false) :
    (checkExcelCompatibilityT f env).1 =
      [.metadataBytesRead, .formatCheck false] := by
  unfold checkExcelCompatibilityT tryBody
  rw [h]
  simp

/-- Witness for `c6_rejection_before_parsing` at the 50-byte creator
file. -/
theorem c6_rejection_before_parsing_witness :
    (checkExcelCompatibilityT sampleCreatorFile sampleParseEnv).1 =
      [.metadataBytesRead, .formatCheck false] :=
  c6_rejection_before_parsing sampleCreatorFile sampleParseEnv (by decide)

/-! ### Content recovery data model (`FileRecoveryPreview.tsx` 7–17) -/

inductive ContentType
  | xml
  | text
  | binary
deriving DecidableEq

structure SpreadsheetTable where
  name : String
  data : List (List String)
deriving DecidableEq

structure RecoveredContent where
  text : List String
  tables : List SpreadsheetTable
  type : ContentType
  source : String
deriving DecidableEq

/-! ### Binary-path text-block extraction
(`FileRecoveryPreview.tsx` 381–473) -/

/-- Printable ASCII or tab/LF/CR (lines 392). -/
def isPrintableByte (b : Nat) : Bool :=
  (32 ≤ b && b ≤ 126) || b == 9 || b == 10 || b == 13

/-- `/[a-zA-Z]{n,}/.test s`: some position starts a run of `n`
consecutive ASCII letters. -/
def hasRunOfLetters (n : Nat) : List Char → Bool
  | [] => n == 0
  | c :: cs =>
    ((((c :: cs).take n).length == n) && ((c :: cs).take n).all isAsciiLetter) ||
    hasRunOfLetters n cs

/-- `/^[0-9.,-]+$/.test s`. -/
def isNumericPunct (s : List Char) : Bool :=
  !s.isEmpty && s.all fun c => isAsciiDigit c || c = '.' || c = ',' || c = '-'

/-- A finished run is kept when it has at least 4 bytes and its trimmed
decoding contains two consecutive letters and is not purely
numeric/punctuation (lines 396–402 and 408–413). -/
def keepRun (run : List Nat) : List String :=
  if run.length ≥ 4 then
    let blockText := jsTrim (utf8Decode run)
    if hasRunOfLetters 2 blockText && !isNumericPunct blockText then
      [String.mk blockText]
    else []
  else []

/-- The run-accumulation loop over the byte buffer (lines 389–413):
maximal runs of printable bytes, ended by any other byte. -/
def collectTextBlocks : List Nat → List Nat → List String
  | [], current => keepRun current
  | b :: bs, current =>
    if isPrintableByte b then collectTextBlocks bs (current ++ [b])
    else keepRun current ++ collectTextBlocks bs []

/-- `/[\x00-\x08\x0B\x0C\x0E-\x1F\x7F]/.test s`. -/
def hasControlChar (s : List Char) : Bool :=
  s.any fun c =>
    c.toNat ≤ 8 || c.toNat == 11 || c.toNat == 12 ||
    (14 ≤ c.toNat && c.toNat ≤ 31) || c.toNat == 127

/-- The "normal text" class `[a-zA-Z0-9.,;:'"!? -]` of the ratio
filter. -/
def isTextualChar (c : Char) : Bool :=
  isAsciiLetter c || isAsciiDigit c ||
  c ∈ ['.', ',', ';', ':', Char.ofNat 39, '"', '!', '?', ' ', '-']

/-- `block.replace(/[^...]/g, '').length > block.length * 0.7`.  The
float multiplication is modelled as the exact rational comparison
`10·kept > 7·length`, which coincides with the double computation for
every block length arising here. -/
def textRatioOk (s : List Char) : Bool :=
  10 * (s.filter isTextualChar).length > 7 * s.length

/-- The cleaning pass (lines 416–428): second filter, first-occurrence
deduplication, cap at 40 entries. -/
def cleanedBlocksOf (textBlocks : List String) : List String :=
  ((textBlocks.filter fun b =>
      decide (b.length ≥ 3) && hasRunOfLetters 3 b.toList &&
      !hasControlChar b.toList && textRatioOk b.toList).foldl
    (fun acc s => if acc.contains s then acc else acc ++ [s]) []).take 40

/-- The delimiter-based table heuristic (lines 434–456). -/
def binaryTables (cleanedBlocks : List String) : List SpreadsheetTable :=
  let tableLines := cleanedBlocks.filter fun block =>
    (textIncludes block.toList ['\t'] || textIncludes block.toList [',']) &&
    (decide ((block.toList.splitOn '\t').length > 1) ||
     decide ((block.toList.splitOn ',').length > 1))
  if tableLines.length ≥ 3 then
    let delim : Char :=
      if textIncludes ((tableLines.headD "").toList) ['\t'] then '\t' else ','
    [⟨"Recovered Table",
      tableLines.map fun line =>
        (line.toList.splitOn delim).map fun cell => String.mk (jsTrim cell)⟩]
  else []

/-- `extractTextFromBinary` (lines 381–473). -/
def extractTextFromBinary (bytes : List Nat) : RecoveredContent :=
  let cleanedBlocks := cleanedBlocksOf (collectTextBlocks bytes [])
  let tables := binaryTables cleanedBlocks
  if cleanedBlocks.length > 0 then
    ⟨cleanedBlocks, tables, .binary, "Text recovered from binary Excel file"⟩
  else
    ⟨["No readable text could be recovered from this file."], [], .binary,
     "Binary file analysis"⟩

theorem collectTextBlocks_zeros (n : Nat) :
    collectTextBlocks (List.replicate n 0) [] = [] := by
  induction n with
  | zero => rfl
  | succ k ih =>
    rw [List.replicate_succ]
    show keepRun [] ++ collectTextBlocks (List.replicate k 0) [] = []
    rw [ih]
    rfl

/-- C9: on a buffer consisting entirely of zero bytes, binary-path
extraction finds no text blocks and returns the fallback message with
an empty tables list and the `binary` type tag (and, being a total
function, does not throw). -/
theorem c9_zero_buffer (n : Nat) :
    extractTextFromBinary (List.replicate n 0) =
      ⟨["No readable text could be recovered from this file."], [], .binary,
       "Binary file analysis"⟩ := by
  unfold extractTextFromBinary
  rw [collectTextBlocks_zeros]
  rfl

/-! ### First-attempt row/cell extraction
(`FileRecoveryPreview.tsx` 114–160)

Each regex of the source is one `scanLoop` step function; its lazy
quantifiers reduce to leftmost-literal searches because the bracketed
character classes cannot cross the closing literals. -/

def sheetDataOpen : List Char := "<sheetData>".toList

def sheetDataClose : List Char := "</sheetData>".toList

/-- One attempt of `/open([\s\S]*?)close/` at the start of `t`. -/
def lazyBlockStep (openLit closeLit t : List Char) :
    Option (List Char × Nat) :=
  if openLit.isPrefixOf t then
    let r := t.drop openLit.length
    match findSub closeLit r with
    | some m => some (r.take m, openLit.length + m + closeLit.length)
    | none => none
  else none

/-- One attempt of `/<row[^>]*>([\s\S]*?)<\/row>/` at the start of
`t`. -/
def rowStep (t : List Char) : Option (List Char × Nat) :=
  if "<row".toList.isPrefixOf t then
    let r := t.drop 4
    match findSub ['>'] r with
    | some k =>
      let body := r.drop (k + 1)
      match findSub "</row>".toList body with
      | some m => some (body.take m, 4 + k + 1 + m + 6)
      | none => none
    | none => none
  else none

/-- One attempt of `/<c[^>]*><v>([^<]*)<\/v><\/c>/` at the start of
`t`. -/
def cellStep (t : List Char) : Option (List Char × Nat) :=
  if "<c".toList.isPrefixOf t then
    let r := t.drop 2
    match findSub ['>'] r with
    | some k =>
      if "<v>".toList.isPrefixOf (r.drop (k + 1)) then
        let v := (r.drop (k + 4)).takeWhile (fun c => c ≠ '<')
        if "</v></c>".toList.isPrefixOf (r.drop (k + 4 + v.length)) then
          some (v, 2 + k + 4 + v.length + 8)
        else none
      else none
    | none => none
  else none

/-- Cell values collected inside one row (lines 134–143). -/
def rowValues (rowContent : List Char) : List (List Char) :=
  scanAll cellStep rowContent

/-- `cellMatch[1] && cellMatch[1].trim().length > 0`. -/
def valueHasContent (v : List Char) : Bool :=
  !v.isEmpty && !(jsTrim v).isEmpty

/-- One row of the first-attempt extraction (lines 128–150): `none`
when the row is skipped (falsy content, or no non-blank cell). -/
def processRow (rowContent : List Char) : Option (List String) :=
  if rowContent.isEmpty then none
  else
    let values := rowValues rowContent
    let rowData := values.map String.mk
    let hasContent := values.any valueHasContent
    if hasContent && !rowData.isEmpty then some rowData else none

/-- The row loop over one worksheet-data block (lines 120–150). -/
def processBlock (blockContent : List Char) : List (List String) :=
  if blockContent.isEmpty then []
  else (scanAll rowStep blockContent).filterMap processRow

/-- The block loop with its three-table cap (lines 117–160): a block is
examined only while fewer than 3 tables have been produced, and a
produced table is named "Sheet <count>" after the increment. -/
def tablesLoop : List (List Char) → Nat → List SpreadsheetTable
  | [], _ => []
  | b :: bs, count =>
    if count < 3 then
      let td := processBlock b
      if !td.isEmpty then
        ⟨"Sheet " ++ toString (count + 1), td⟩ :: tablesLoop bs (count + 1)
      else tablesLoop bs count
    else []

/-- The first-attempt row/cell extraction step of `extractTextFromZip`
(lines 114–160). -/
def firstAttemptTables (fullText : List Char) : List SpreadsheetTable :=
  tablesLoop (scanAll (lazyBlockStep sheetDataOpen sheetDataClose) fullText) 0

/-! ### Well-formed packaged-XML buffers (the round-trip statement)

`renderSheets` generates exactly the buffers the round-trip property
C3 quantifies over: worksheet-data blocks in order, separated by
container noise; attribute text carries no angle brackets, cell values
and noise regions no `<`. -/

structure XmlCell where
  attrs : List Char
  value : List Char
deriving DecidableEq

structure XmlRow where
  attrs : List Char
  cells : List XmlCell
deriving DecidableEq

def renderCell (c : XmlCell) : List Char :=
  "<c".toList ++ c.attrs ++ "><v>".toList ++ c.value ++ "</v></c>".toList

def renderRow (r : XmlRow) : List Char :=
  "<row".toList ++ r.attrs ++ [ '>' ] ++
    (r.cells.map renderCell).flatten ++ "</row>".toList

def renderSheet (rows : List XmlRow) : List Char :=
  sheetDataOpen ++ (rows.map renderRow).flatten ++ sheetDataClose

/-- Worksheet-data blocks interleaved with trailing separator noise. -/
def renderSheets : List (List XmlRow × List Char) → List Char
  | [] => []
  | (rows, sep) :: rest => renderSheet rows ++ sep ++ renderSheets rest

/-- No `<` occurs (cell values; separator noise). -/
def NoLt (s : List Char) : Prop := ∀ c ∈ s, c ≠ '<'

/-- No angle bracket occurs (attribute text). -/
def NoAngle (s : List Char) : Prop := ∀ c ∈ s, c ≠ '<' ∧ c ≠ '>'

def WfCell (c : XmlCell) : Prop := NoAngle c.attrs ∧ NoLt c.value

def WfRow (r : XmlRow) : Prop := NoAngle r.attrs ∧ ∀ c ∈ r.cells, WfCell c

instance (s : List Char) : Decidable (NoLt s) := by
  unfold NoLt; infer_instance

instance (s : List Char) : Decidable (NoAngle s) := by
  unfold NoAngle; infer_instance

instance (c : XmlCell) : Decidable (WfCell c) := by
  unfold WfCell; infer_instance

instance (r : XmlRow) : Decidable (WfRow r) := by
  unfold WfRow; infer_instance

/-- A row survives the extraction filter exactly when it has a cell
and some cell value is non-blank. -/
def keptRow (r : XmlRow) : Bool :=
  !r.cells.isEmpty && (r.cells.map XmlCell.value).any valueHasContent

/-- The expected table body for one block: the kept rows, each as its
list of cell values. -/
def sheetExpectedData (rows : List XmlRow) : List (List String) :=
  (rows.filter keptRow).map fun r => r.cells.map fun c => String.mk c.value

/-! ### Round-trip lemmas for the first-attempt extraction -/

theorem drop_append_len {a b : List Char} (n : Nat) :
    (a ++ b).drop (a.length + n) = b.drop n := by
  rw [List.drop_append_eq_append_drop, List.drop_eq_nil_of_le (by omega),
    List.nil_append]
  congr 1
  omega

theorem noPartial_of_NoLt {needle x : List Char}
    (hn : needle.head? = some '<') (hx : NoLt x) : NoPartial needle x :=
  noPartial_of_head_free hn hx

theorem noPartial_of_NoAngle_lt {needle x : List Char}
    (hn : needle.head? = some '<') (hx : NoAngle x) : NoPartial needle x :=
  noPartial_of_head_free hn fun c hc => (hx c hc).1

theorem noPartial_gt_of_NoAngle {x : List Char} (hx : NoAngle x) :
    NoPartial ['>'] x :=
  noPartial_of_head_free rfl fun c hc => (hx c hc).2

theorem noPartial_flatten {needle : List Char} {ls : List (List Char)}
    (h : ∀ l ∈ ls, NoPartial needle l) : NoPartial needle ls.flatten := by
  induction ls with
  | nil => exact noPartial_nil needle
  | cons l ls ih =>
    rw [List.flatten_cons]
    exact noPartial_append (h l (by simp))
      (ih fun m hm => h m (by simp [hm]))

/-- A scan skips a needle-free region when the matcher requires a fixed
literal prefix to fire. -/
theorem scanAll_shift_gated {α : Type} {lit : List Char}
    {step : List Char → Option (α × Nat)}
    (hg : ∀ t, ¬ (lit <+: t) → step t = none) {x : List Char}
    (hx : NoPartial lit x) (t : List Char) :
    scanAll step (x ++ t) = scanAll step t := by
  apply scanAll_append_dead
  intro p hp
  apply hg
  intro hpre
  rcases prefix_append_cases hpre with h' | h'
  · exact (hx p hp).2 h'
  · exact (hx p hp).1 h'

theorem lazyBlockStep_gated (openLit closeLit : List Char) :
    ∀ t, ¬ (openLit <+: t) →
      lazyBlockStep openLit closeLit t = none := by
  intro t hpre
  unfold lazyBlockStep
  rw [if_neg]
  intro hb
  exact hpre (List.isPrefixOf_iff_prefix.mp hb)

theorem rowStep_gated :
    ∀ t, ¬ ("<row".toList <+: t) → rowStep t = none := by
  intro t hpre
  unfold rowStep
  rw [if_neg]
  intro hb
  exact hpre (List.isPrefixOf_iff_prefix.mp hb)

theorem cellStep_gated :
    ∀ t, ¬ ("<c".toList <+: t) → cellStep t = none := by
  intro t hpre
  unfold cellStep
  rw [if_neg]
  intro hb
  exact hpre (List.isPrefixOf_iff_prefix.mp hb)

theorem takeWhile_until_lt {value : List Char} (hval : NoLt value)
    (y : List Char) :
    (value ++ ('<' :: y)).takeWhile (fun c => c ≠ '<') = value := by
  induction value with
  | nil => simp [List.takeWhile]
  | cons c cs ih =>
    have hc : c ≠ '<' := hval c (by simp)
    have hcd : (decide (c ≠ '<')) = true := by simp [hc]
    rw [List.cons_append, List.takeWhile_cons, hcd]
    rw [if_pos rfl]
    rw [ih fun d hd => hval d (by simp [hd])]

theorem isPrefixOf_append_self (a b : List Char) :
    a.isPrefixOf (a ++ b) = true :=
  List.isPrefixOf_iff_prefix.mpr (List.prefix_append a b)

/-- A well-formed rendered cell is matched in full by the cell regex,
capturing its value. -/
theorem cellStep_render (c : XmlCell) (hwf : WfCell c) (rest : List Char) :
    cellStep (renderCell c ++ rest) = some (c.value, (renderCell c).length) := by
  obtain ⟨hattrs, hval⟩ := hwf
  have hshape : renderCell c ++ rest =
      "<c".toList ++ (c.attrs ++ ("><v>".toList ++
        (c.value ++ ("</v></c>".toList ++ rest)))) := by
    simp [renderCell, List.append_assoc]
  rw [hshape]
  have hpre : ("<c".toList).isPrefixOf ("<c".toList ++ (c.attrs ++
      ("><v>".toList ++ (c.value ++ ("</v></c>".toList ++ rest))))) = true :=
    isPrefixOf_append_self ..
  have hdrop2 : ("<c".toList ++ (c.attrs ++ ("><v>".toList ++
      (c.value ++ ("</v></c>".toList ++ rest))))).drop 2 =
      c.attrs ++ ("><v>".toList ++ (c.value ++ ("</v></c>".toList ++ rest))) := by
    rw [show (2 : Nat) = ("<c".toList).length from rfl]
    exact List.drop_left ..
  have hfind : findSub ['>'] (c.attrs ++ ("><v>".toList ++
      (c.value ++ ("</v></c>".toList ++ rest)))) = some c.attrs.length := by
    have h1 := findSub_shift_exact
      (noPartial_gt_of_NoAngle hattrs)
      ("<v>".toList ++ (c.value ++ ("</v></c>".toList ++ rest)))
    simpa [List.append_assoc] using h1
  have hvtag : (c.attrs ++ ("><v>".toList ++
      (c.value ++ ("</v></c>".toList ++ rest)))).drop (c.attrs.length + 1) =
      "<v>".toList ++ (c.value ++ ("</v></c>".toList ++ rest)) :=
    drop_append_len 1
  have hvpre : ("<v>".toList).isPrefixOf ("<v>".toList ++
      (c.value ++ ("</v></c>".toList ++ rest))) = true :=
    isPrefixOf_append_self ..
  have hvdrop : (c.attrs ++ ("><v>".toList ++
      (c.value ++ ("</v></c>".toList ++ rest)))).drop (c.attrs.length + 1 + 3) =
      c.value ++ ("</v></c>".toList ++ rest) := by
    rw [show c.attrs.length + 1 + 3 = c.attrs.length + 4 from rfl]
    exact drop_append_len 4
  have htake : (c.value ++ ("</v></c>".toList ++ rest)).takeWhile
      (fun ch => ch ≠ '<') = c.value :=
    takeWhile_until_lt hval ("/v></c>".toList ++ rest)
  have hclose : (c.attrs ++ ("><v>".toList ++
      (c.value ++ ("</v></c>".toList ++ rest)))).drop
        (c.attrs.length + 1 + 3 + c.value.length) =
      "</v></c>".toList ++ rest := by
    rw [show c.attrs.length + 1 + 3 + c.value.length =
        c.attrs.length + (4 + c.value.length) from by omega,
      drop_append_len,
      show (4 + c.value.length : Nat) =
        ("><v>".toList : List Char).length + c.value.length from rfl,
      drop_append_len,
      show c.value.length = c.value.length + 0 from by omega,
      drop_append_len,
      List.drop_zero]
  have hcpre : ("</v></c>".toList).isPrefixOf ("</v></c>".toList ++ rest) = true :=
    isPrefixOf_append_self ..
  simp only [cellStep, hpre, if_true, hdrop2, hfind, hvtag, hvpre, htake,
    hvdrop, hclose, hcpre]
  simp only [Option.some.injEq, Prod.mk.injEq]
  refine ⟨trivial, ?_⟩
  simp [renderCell, List.length_append]
  omega

theorem renderCell_ne_nil (c : XmlCell) : renderCell c ≠ [] := by
  unfold renderCell
  intro h
  have hlen := congrArg List.length h
  simp [List.length_append] at hlen

theorem renderRow_ne_nil (r : XmlRow) : renderRow r ≠ [] := by
  unfold renderRow
  intro h
  have hlen := congrArg List.length h
  simp [List.length_append] at hlen

/-- The cell loop over a row body built from well-formed cells yields
exactly the cell values, in order. -/
theorem scanAll_cells (cells : List XmlCell) (hwf : ∀ c ∈ cells, WfCell c) :
    scanAll cellStep ((cells.map renderCell).flatten) =
      cells.map XmlCell.value := by
  induction cells with
  | nil => rfl
  | cons c cs ih =>
    rw [List.map_cons, List.flatten_cons]
    rw [scanAll_append_match (cellStep_render c (hwf c (by simp)) _)
      (renderCell_ne_nil c)]
    rw [ih fun d hd => hwf d (by simp [hd])]
    rfl

/-- `NoPartial` for a `<`-headed needle over a rendered cell, given
non-occurrence in the fixed markup pieces. -/
theorem noPartial_renderCell {needle : List Char}
    (hn : needle.head? = some '<')
    (hlit2 : NoPartial needle "<c".toList)
    (hlit4 : NoPartial needle "><v>".toList)
    (hlit8 : NoPartial needle "</v></c>".toList)
    (c : XmlCell) (hwf : WfCell c) : NoPartial needle (renderCell c) := by
  unfold renderCell
  have hattrs := noPartial_of_NoAngle_lt hn hwf.1
  have hvalue := noPartial_of_NoLt hn hwf.2
  exact noPartial_append (noPartial_append (noPartial_append
    (noPartial_append hlit2 hattrs) hlit4) hvalue) hlit8

/-- `NoPartial` for a `<`-headed needle over a rendered row. -/
theorem noPartial_renderRow {needle : List Char}
    (hn : needle.head? = some '<')
    (hlit2 : NoPartial needle "<c".toList)
    (hlit4 : NoPartial needle "><v>".toList)
    (hlit8 : NoPartial needle "</v></c>".toList)
    (hrow4 : NoPartial needle "<row".toList)
    (hgt : NoPartial needle ['>'])
    (hrow6 : NoPartial needle "</row>".toList)
    (r : XmlRow) (hwf : WfRow r) : NoPartial needle (renderRow r) := by
  unfold renderRow
  have hattrs := noPartial_of_NoAngle_lt hn hwf.1
  have hbody : NoPartial needle ((r.cells.map renderCell).flatten) := by
    apply noPartial_flatten
    intro l hl
    rw [List.mem_map] at hl
    obtain ⟨cl, hcl, rfl⟩ := hl
    exact noPartial_renderCell hn hlit2 hlit4 hlit8 cl (hwf.2 cl hcl)
  exact noPartial_append (noPartial_append (noPartial_append
    (noPartial_append hrow4 hattrs) hgt) hbody) hrow6

/-- A well-formed rendered row is matched in full by the row regex,
capturing its cell markup. -/
theorem rowStep_render (r : XmlRow) (hwf : WfRow r) (rest : List Char) :
    rowStep (renderRow r ++ rest) =
      some ((r.cells.map renderCell).flatten, (renderRow r).length) := by
  have hattrs := hwf.1
  have hshape : renderRow r ++ rest =
      "<row".toList ++ (r.attrs ++ ([ '>' ] ++
        ((r.cells.map renderCell).flatten ++ ("</row>".toList ++ rest)))) := by
    simp [renderRow, List.append_assoc]
  rw [hshape]
  have hpre : ("<row".toList).isPrefixOf ("<row".toList ++ (r.attrs ++
      ([ '>' ] ++ ((r.cells.map renderCell).flatten ++
        ("</row>".toList ++ rest))))) = true :=
    isPrefixOf_append_self ..
  have hdrop4 : ("<row".toList ++ (r.attrs ++ ([ '>' ] ++
      ((r.cells.map renderCell).flatten ++ ("</row>".toList ++ rest))))).drop 4 =
      r.attrs ++ ([ '>' ] ++ ((r.cells.map renderCell).flatten ++
        ("</row>".toList ++ rest))) := by
    rw [show (4 : Nat) = ("<row".toList).length from rfl]
    exact List.drop_left ..
  have hfind : findSub ['>'] (r.attrs ++ ([ '>' ] ++
      ((r.cells.map renderCell).flatten ++ ("</row>".toList ++ rest)))) =
      some r.attrs.length := by
    have h1 := findSub_shift_exact
      (noPartial_gt_of_NoAngle hattrs)
      ((r.cells.map renderCell).flatten ++ ("</row>".toList ++ rest))
    simpa [List.append_assoc] using h1
  have hbodydrop : (r.attrs ++ ([ '>' ] ++
      ((r.cells.map renderCell).flatten ++ ("</row>".toList ++ rest)))).drop
        (r.attrs.length + 1) =
      (r.cells.map renderCell).flatten ++ ("</row>".toList ++ rest) :=
    drop_append_len 1
  have hclosefind : findSub ("</row>".toList)
      ((r.cells.map renderCell).flatten ++ ("</row>".toList ++ rest)) =
      some ((r.cells.map renderCell).flatten).length := by
    have hnp : NoPartial ("</row>".toList) ((r.cells.map renderCell).flatten) := by
      apply noPartial_flatten
      intro l hl
      rw [List.mem_map] at hl
      obtain ⟨cl, hcl, rfl⟩ := hl
      exact noPartial_renderCell (by decide) (by decide) (by decide) (by decide)
        cl (hwf.2 cl hcl)
    have h1 := findSub_shift_exact hnp rest
    simpa [List.append_assoc] using h1
  have htake : ((r.cells.map renderCell).flatten ++
      ("</row>".toList ++ rest)).take ((r.cells.map renderCell).flatten).length =
      (r.cells.map renderCell).flatten :=
    List.take_left ..
  simp only [rowStep, hpre, if_true, hdrop4, hfind, hbodydrop, hclosefind,
    htake]
  simp only [Option.some.injEq, Prod.mk.injEq]
  refine ⟨trivial, ?_⟩
  simp [renderRow, List.length_append]
  omega

/-- The row loop over a block body built from well-formed rows yields
exactly the rows' cell markup, in order. -/
theorem scanAll_rows (rows : List XmlRow) (hwf : ∀ r ∈ rows, WfRow r) :
    scanAll rowStep ((rows.map renderRow).flatten) =
      rows.map fun r => (r.cells.map renderCell).flatten := by
  induction rows with
  | nil => rfl
  | cons r rs ih =>
    rw [List.map_cons, List.flatten_cons]
    rw [scanAll_append_match (rowStep_render r (hwf r (by simp)) _)
      (renderRow_ne_nil r)]
    rw [ih fun d hd => hwf d (by simp [hd])]
    rfl

/-- A well-formed rendered worksheet-data block is matched in full by
the block regex, capturing its row markup. -/
theorem blockStep_render (rows : List XmlRow) (hwf : ∀ r ∈ rows, WfRow r)
    (rest : List Char) :
    lazyBlockStep sheetDataOpen sheetDataClose (renderSheet rows ++ rest) =
      some ((rows.map renderRow).flatten, (renderSheet rows).length) := by
  have hshape : renderSheet rows ++ rest =
      sheetDataOpen ++ ((rows.map renderRow).flatten ++ (sheetDataClose ++ rest)) := by
    simp [renderSheet, List.append_assoc]
  rw [hshape]
  have hpre : sheetDataOpen.isPrefixOf (sheetDataOpen ++
      ((rows.map renderRow).flatten ++ (sheetDataClose ++ rest))) = true :=
    isPrefixOf_append_self ..
  have hdrop : (sheetDataOpen ++ ((rows.map renderRow).flatten ++
      (sheetDataClose ++ rest))).drop sheetDataOpen.length =
      (rows.map renderRow).flatten ++ (sheetDataClose ++ rest) :=
    List.drop_left ..
  have hclosefind : findSub sheetDataClose
      ((rows.map renderRow).flatten ++ (sheetDataClose ++ rest)) =
      some ((rows.map renderRow).flatten).length := by
    have hnp : NoPartial sheetDataClose ((rows.map renderRow).flatten) := by
      apply noPartial_flatten
      intro l hl
      rw [List.mem_map] at hl
      obtain ⟨rw', hrw, rfl⟩ := hl
      exact noPartial_renderRow (by decide) (by decide) (by decide) (by decide)
        (by decide) (by decide) (by decide) rw' (hwf rw' hrw)
    have h1 := findSub_shift_exact hnp rest
    simpa [List.append_assoc] using h1
  have htake : ((rows.map renderRow).flatten ++
      (sheetDataClose ++ rest)).take ((rows.map renderRow).flatten).length =
      (rows.map renderRow).flatten :=
    List.take_left ..
  simp only [lazyBlockStep, hpre, if_true, hdrop, hclosefind, htake]
  simp only [Option.some.injEq, Prod.mk.injEq]
  refine ⟨trivial, ?_⟩
  simp [renderSheet, List.length_append, sheetDataOpen, sheetDataClose]
  omega

theorem renderSheet_ne_nil (rows : List XmlRow) : renderSheet rows ≠ [] := by
  unfold renderSheet
  intro h
  have hlen := congrArg List.length h
  simp [List.length_append, sheetDataOpen] at hlen

/-- The block loop over a rendered buffer finds exactly the blocks'
row markup, in buffer order, skipping the separator noise. -/
theorem scanAll_blocks (sheets : List (List XmlRow × List Char))
    (hwf : ∀ s ∈ sheets, (∀ r ∈ s.1, WfRow r) ∧ NoLt s.2) :
    scanAll (lazyBlockStep sheetDataOpen sheetDataClose) (renderSheets sheets) =
      sheets.map fun s => (s.1.map renderRow).flatten := by
  induction sheets with
  | nil => rfl
  | cons s ss ih =>
    have hs := hwf s (by simp)
    rw [show renderSheets (s :: ss) =
      renderSheet s.1 ++ (s.2 ++ renderSheets ss) from by
        simp [renderSheets, List.append_assoc]]
    rw [scanAll_append_match (blockStep_render s.1 hs.1 _)
      (renderSheet_ne_nil s.1)]
    rw [scanAll_shift_gated (lazyBlockStep_gated sheetDataOpen sheetDataClose)
      (noPartial_of_NoLt rfl hs.2)]
    rw [ih fun d hd => hwf d (by simp [hd])]
    rfl

theorem flatten_renderCell_ne_nil {cells : List XmlCell} (h : cells ≠ []) :
    (cells.map renderCell).flatten ≠ [] := by
  rcases cells with _ | ⟨c, cs⟩
  · exact absurd rfl h
  · rw [List.map_cons, List.flatten_cons]
    intro hcontra
    exact renderCell_ne_nil c (List.append_eq_nil.mp hcontra).1

theorem flatten_renderRow_ne_nil {rows : List XmlRow} (h : rows ≠ []) :
    (rows.map renderRow).flatten ≠ [] := by
  rcases rows with _ | ⟨r, rs⟩
  · exact absurd rfl h
  · rw [List.map_cons, List.flatten_cons]
    intro hcontra
    exact renderRow_ne_nil r (List.append_eq_nil.mp hcontra).1

/-- A rendered row is kept by `processRow` exactly when it has a
non-blank cell, and then contributes all its cell values. -/
theorem processRow_render (r : XmlRow) (hwf : WfRow r) :
    processRow ((r.cells.map renderCell).flatten) =
      if keptRow r then some (r.cells.map fun c => String.mk c.value)
      else none := by
  by_cases hc : r.cells = []
  · rw [hc]
    simp [processRow, keptRow, hc]
  · have hbody : ((r.cells.map renderCell).flatten).isEmpty = false := by
      rw [List.isEmpty_eq_false]
      exact flatten_renderCell_ne_nil hc
    have hvals : ((r.cells.map XmlCell.value).map String.mk).isEmpty = false := by
      rw [List.isEmpty_eq_false]
      intro hcontra
      rw [List.map_eq_nil, List.map_eq_nil] at hcontra
      exact hc hcontra
    have hcells : r.cells.isEmpty = false := by
      rw [List.isEmpty_eq_false]
      exact hc
    simp only [processRow, rowValues, hbody, Bool.false_eq_true, if_false,
      scanAll_cells r.cells hwf.2, keptRow, hcells, hvals, Bool.not_false,
      Bool.true_and, Bool.and_true]
    by_cases hany : (r.cells.map XmlCell.value).any valueHasContent
    · simp [hany, List.map_map]
    · simp [hany]

theorem filterMap_processRow (rows : List XmlRow)
    (hwf : ∀ r ∈ rows, WfRow r) :
    ((rows.map fun r => (r.cells.map renderCell).flatten).filterMap
      processRow) = sheetExpectedData rows := by
  induction rows with
  | nil => rfl
  | cons r rs ih =>
    rw [List.map_cons, List.filterMap_cons]
    rw [processRow_render r (hwf r (by simp))]
    have ihr := ih fun d hd => hwf d (by simp [hd])
    by_cases hk : keptRow r
    · simp only [hk, if_true, sheetExpectedData, List.filter_cons, hk,
        List.map_cons]
      exact congrArg _ ihr
    · simp only [hk, Bool.false_eq_true, if_false, sheetExpectedData,
        List.filter_cons, hk]
      exact ihr

/-- A rendered block yields exactly the kept rows, each as its list of
cell values. -/
theorem processBlock_render (rows : List XmlRow)
    (hwf : ∀ r ∈ rows, WfRow r) :
    processBlock ((rows.map renderRow).flatten) = sheetExpectedData rows := by
  by_cases hr : rows = []
  · rw [hr]
    rfl
  · have hbody : ((rows.map renderRow).flatten).isEmpty = false := by
      rw [List.isEmpty_eq_false]
      exact flatten_renderRow_ne_nil hr
    simp only [processBlock, hbody, Bool.false_eq_true, if_false]
    rw [scanAll_rows rows hwf]
    exact filterMap_processRow rows hwf

theorem sheetExpectedData_ne_nil {rows : List XmlRow}
    (h : ∃ r ∈ rows, keptRow r = true) : sheetExpectedData rows ≠ [] := by
  obtain ⟨r, hr, hk⟩ := h
  have hmem : r ∈ rows.filter keptRow := List.mem_filter.mpr ⟨hr, hk⟩
  intro hcontra
  unfold sheetExpectedData at hcontra
  rw [List.map_eq_nil] at hcontra
  rw [hcontra] at hmem
  exact List.not_mem_nil r hmem

/-- C3: a well-formed packaged-XML buffer — separator noise, then three
worksheet-data blocks each followed by more noise — in which every
block holds at least one row with a non-blank cell value, passes the
row/cell extraction step into exactly three tables named "Sheet 1",
"Sheet 2", "Sheet 3" in block order, each containing precisely the
block's rows that had at least one non-blank cell. -/
theorem c3_first_attempt_roundtrip (sep0 p1 p2 p3 : List Char)
    (s1 s2 s3 : List XmlRow)
    (hsep0 : NoLt sep0) (hp1 : NoLt p1) (hp2 : NoLt p2) (hp3 : NoLt p3)
    (hw1 : ∀ r ∈ s1, WfRow r) (hw2 : ∀ r ∈ s2, WfRow r)
    (hw3 : ∀ r ∈ s3, WfRow r)
    (hc1 : ∃ r ∈ s1, keptRow r = true) (hc2 : ∃ r ∈ s2, keptRow r = true)
    (hc3 : ∃ r ∈ s3, keptRow r = true) :
    firstAttemptTables (sep0 ++ renderSheets [(s1, p1), (s2, p2), (s3, p3)]) =
      [⟨"Sheet 1", sheetExpectedData s1⟩,
       ⟨"Sheet 2", sheetExpectedData s2⟩,
       ⟨"Sheet 3", sheetExpectedData s3⟩] := by
  unfold firstAttemptTables
  rw [scanAll_shift_gated (lazyBlockStep_gated sheetDataOpen sheetDataClose)
    (noPartial_of_NoLt rfl hsep0)]
  rw [scanAll_blocks [(s1, p1), (s2, p2), (s3, p3)] (by
    intro s hs
    simp only [List.mem_cons, List.not_mem_nil, or_false] at hs
    rcases hs with hs | hs | hs
    · rw [hs]; exact ⟨hw1, hp1⟩
    · rw [hs]; exact ⟨hw2, hp2⟩
    · rw [hs]; exact ⟨hw3, hp3⟩)]
  simp only [List.map_cons, List.map_nil]
  have hb1 := processBlock_render s1 hw1
  have hb2 := processBlock_render s2 hw2
  have hb3 := processBlock_render s3 hw3
  have he1 : (sheetExpectedData s1).isEmpty = false := by
    rw [List.isEmpty_eq_false]; exact sheetExpectedData_ne_nil hc1
  have he2 : (sheetExpectedData s2).isEmpty = false := by
    rw [List.isEmpty_eq_false]; exact sheetExpectedData_ne_nil hc2
  have he3 : (sheetExpectedData s3).isEmpty = false := by
    rw [List.isEmpty_eq_false]; exact sheetExpectedData_ne_nil hc3
  show tablesLoop _ 0 = _
  rw [show tablesLoop
      [(s1.map renderRow).flatten, (s2.map renderRow).flatten,
       (s3.map renderRow).flatten] 0 =
    if 0 < 3 then
      if !(processBlock ((s1.map renderRow).flatten)).isEmpty then
        ⟨"Sheet " ++ toString 1, processBlock ((s1.map renderRow).flatten)⟩ ::
          tablesLoop [(s2.map renderRow).flatten, (s3.map renderRow).flatten] 1
      else tablesLoop [(s2.map renderRow).flatten, (s3.map renderRow).flatten] 0
    else [] from rfl]
  rw [hb1]
  rw [if_pos (by norm_num), if_pos (by rw [he1]; rfl)]
  rw [show tablesLoop
      [(s2.map renderRow).flatten, (s3.map renderRow).flatten] 1 =
    if 1 < 3 then
      if !(processBlock ((s2.map renderRow).flatten)).isEmpty then
        ⟨"Sheet " ++ toString 2, processBlock ((s2.map renderRow).flatten)⟩ ::
          tablesLoop [(s3.map renderRow).flatten] 2
      else tablesLoop [(s3.map renderRow).flatten] 1
    else [] from rfl]
  rw [hb2]
  rw [if_pos (by norm_num), if_pos (by rw [he2]; rfl)]
  rw [show tablesLoop [(s3.map renderRow).flatten] 2 =
    if 2 < 3 then
      if !(processBlock ((s3.map renderRow).flatten)).isEmpty then
        ⟨"Sheet " ++ toString 3, processBlock ((s3.map renderRow).flatten)⟩ ::
          tablesLoop [] 3
      else tablesLoop [] 2
    else [] from rfl]
  rw [hb3]
  rw [if_pos (by norm_num), if_pos (by rw [he3]; rfl)]
  rfl

/-- Witness for `c3_first_attempt_roundtrip`: one concrete buffer with
three single-row blocks (the second having an extra all-blank row that
is filtered out). -/
theorem c3_first_attempt_roundtrip_witness :
    firstAttemptTables ("zip".toList ++ renderSheets
      [([⟨" r=\"1\"".toList, [⟨" r=\"A1\"".toList, "7".toList⟩]⟩], "n1".toList),
       ([⟨[], [⟨[], "b".toList⟩]⟩, ⟨[], [⟨[], " ".toList⟩]⟩], []),
       ([⟨[], [⟨" t=\"n\"".toList, "c3".toList⟩]⟩], "end".toList)]) =
      [⟨"Sheet 1", sheetExpectedData
          [⟨" r=\"1\"".toList, [⟨" r=\"A1\"".toList, "7".toList⟩]⟩]⟩,
       ⟨"Sheet 2", sheetExpectedData
          [⟨[], [⟨[], "b".toList⟩]⟩, ⟨[], [⟨[], " ".toList⟩]⟩]⟩,
       ⟨"Sheet 3", sheetExpectedData
          [⟨[], [⟨" t=\"n\"".toList, "c3".toList⟩]⟩]⟩] :=
  c3_first_attempt_roundtrip _ _ _ _ _ _ _
    (by decide) (by decide) (by decide) (by decide)
    (by decide) (by decide) (by decide)
    (by decide) (by decide) (by decide)

/-! ### C10: the shared-string fallback of `extractTextFromZip`
(`FileRecoveryPreview.tsx` lines 163–266)

When the first attempt produced no tables, the component rebuilds a
sparse cell map `cellData` from three global regex scans over the
decoded archive text — shared-string-indexed cells, inline-string
cells, and plain `<v>` value cells, in that order — each pass writing
`cellData[colRef + rowRef]` and therefore overwriting earlier passes
on the same key. -/

def cellRefOpen : List Char := "<c r=\"".toList

/-- The captures of one cell-reference match: column letters, row
digits, and the third capture (string index, inline text, or raw
value). -/
structure CellRefMatch where
  colRef : List Char
  rowDigits : List Char
  payload : List Char
deriving DecidableEq

/-- The part shared by the three cell patterns,
`<c r="([A-Z]+)(\d+)"` followed by `[^>]*` up to the first `>` after
the closing quote (which `[^>]*` cannot cross).  Returns the two
captures, the offset `k` of that `>`, and the remainder `r3` that
starts right after the quote. -/
def cellRefPrelude (t : List Char) :
    Option (List Char × List Char × Nat × List Char) :=
  if cellRefOpen.isPrefixOf t then
    let r := t.drop 6
    let col := r.takeWhile isAsciiUpper
    let r1 := r.drop col.length
    let row := r1.takeWhile isAsciiDigit
    let r2 := r1.drop row.length
    if !col.isEmpty && !row.isEmpty && (r2.head? == some '"') then
      let r3 := r2.drop 1
      match findSub ['>'] r3 with
      | some k => some (col, row, k, r3)
      | none => none
    else none
  else none

/-- One attempt of `/<c r="([A-Z]+)(\d+)"[^>]*t="s"><v>(\d+)<\/v><\/c>/`
(line 182) at the start of `t`.  Because `[^>]*` cannot cross a `>`,
the literal `t="s"` must end right before the first `>` after the
quote; the digit capture is maximal and must be followed by the
closing tags. -/
def trySharedCell (t : List Char) : Option (CellRefMatch × Nat) :=
  match cellRefPrelude t with
  | some (col, row, k, r3) =>
    if 5 ≤ k then
      if (r3.drop (k - 5)).take 5 = "t=\"s\"".toList then
        let r4 := r3.drop (k + 1)
        if "<v>".toList.isPrefixOf r4 then
          let d := (r4.drop 3).takeWhile isAsciiDigit
          if !d.isEmpty &&
              "</v></c>".toList.isPrefixOf (r4.drop (3 + d.length)) then
            some (⟨col, row, d⟩,
              6 + col.length + row.length + 1 + (k + 1) + 3 + d.length + 8)
          else none
        else none
      else none
    else none
  | none => none

/-- One attempt of
`/<c r="([A-Z]+)(\d+)"[^>]*><is><t>([^<]*)<\/t><\/is><\/c>/`
(line 203) at the start of `t`. -/
def tryInlineCell (t : List Char) : Option (CellRefMatch × Nat) :=
  match cellRefPrelude t with
  | some (col, row, k, r3) =>
    let r4 := r3.drop (k + 1)
    if "<is><t>".toList.isPrefixOf r4 then
      let v := (r4.drop 7).takeWhile (fun c => c ≠ '<')
      if "</t></is></c>".toList.isPrefixOf (r4.drop (7 + v.length)) then
        some (⟨col, row, v⟩,
          6 + col.length + row.length + 1 + (k + 1) + 7 + v.length + 13)
      else none
    else none
  | none => none

/-- One attempt of `/<c r="([A-Z]+)(\d+)"[^>]*><v>([^<]*)<\/v><\/c>/`
(line 219) at the start of `t`. -/
def tryNumericCell (t : List Char) : Option (CellRefMatch × Nat) :=
  match cellRefPrelude t with
  | some (col, row, k, r3) =>
    let r4 := r3.drop (k + 1)
    if "<v>".toList.isPrefixOf r4 then
      let v := (r4.drop 3).takeWhile (fun c => c ≠ '<')
      if "</v></c>".toList.isPrefixOf (r4.drop (3 + v.length)) then
        some (⟨col, row, v⟩,
          6 + col.length + row.length + 1 + (k + 1) + 3 + v.length + 8)
      else none
    else none
  | none => none

/-- One attempt of `/<sst[^>]*>([\s\S]*?)<\/sst>/` (line 166) at the
start of `t`. -/
def sstStep (t : List Char) : Option (List Char) :=
  if "<sst".toList.isPrefixOf t then
    let r := t.drop 4
    match findSub ['>'] r with
    | some k =>
      let body := r.drop (k + 1)
      match findSub "</sst>".toList body with
      | some m => some (body.take m)
      | none => none
    | none => none
  else none

/-- `stringTableRegex.exec(fullText)`: the capture of the first
position at which the string-table pattern matches. -/
def extractStringTable (fullText : List Char) : Option (List Char) :=
  findFirst sstStep fullText

/-- One attempt of `/<t[^>]*>([^<]*)<\/t>/` at the start of `t`: the
`<t …>` element probed inside an `<si>` entry. -/
def tMatchStep (t : List Char) : Option (List Char × Nat) :=
  if "<t".toList.isPrefixOf t then
    let r := t.drop 2
    match findSub ['>'] r with
    | some k =>
      let v := (r.drop (k + 1)).takeWhile (fun c => c ≠ '<')
      if "</t>".toList.isPrefixOf (r.drop (k + 1 + v.length)) then
        some (v, 2 + (k + 1) + v.length + 4)
      else none
    | none => none
  else none

/-- The backtracking loop of the two lazy gaps in
`/<si>[\s\S]*?<t[^>]*>([^<]*)<\/t>[\s\S]*?<\/si>/`: starting right
after `<si>`, the first gap grows one character at a time until a
`<t …>` element matches that is followed by a `<\/si>` somewhere
after it; the second gap takes the earliest such `<\/si>`.  `off`
accumulates the length matched so far, `fuel` bounds the search by the
remaining length. -/
def siBodyLoop : Nat → Nat → List Char → Option (List Char × Nat)
  | 0, _, _ => none
  | _ + 1, _, [] => none
  | fuel + 1, off, c :: cs =>
    match tMatchStep (c :: cs) with
    | some (v, tlen) =>
      match findSub "</si>".toList ((c :: cs).drop tlen) with
      | some m => some (v, off + tlen + m + 5)
      | none => siBodyLoop fuel (off + 1) cs
    | none => siBodyLoop fuel (off + 1) cs

/-- One attempt of the shared-string entry pattern (line 171) at the
start of `t`. -/
def siStep (t : List Char) : Option (List Char × Nat) :=
  if "<si>".toList.isPrefixOf t then
    let r := t.drop 4
    siBodyLoop r.length 4 r
  else none

/-- The shared strings pushed from the string table (lines 171–178):
only truthy (non-empty) captures are kept. -/
def sharedStringsOf (stringTable : List Char) : List (List Char) :=
  (scanAll siStep stringTable).filter (fun v => !v.isEmpty)

/-- One recovered cell of the fallback map. -/
structure CellEntry where
  row : Nat
  col : List Char
  value : List Char
deriving DecidableEq

/-- JavaScript object assignment `cellData[k] = v`: overwrite in place
when the key exists, append otherwise. -/
def jsObjSet (m : List (String × CellEntry)) (k : String) (v : CellEntry) :
    List (String × CellEntry) :=
  if m.any (fun kv => kv.1 == k) then
    m.map fun kv => if kv.1 == k then (k, v) else kv
  else m ++ [(k, v)]

/-- The key `` `${colRef}${rowRef}` `` under which a match is stored. -/
def cellKey (cm : CellRefMatch) : String :=
  String.mk cm.colRef ++ toString (parseDigits cm.rowDigits)

/-- The shared-string-indexed pass (lines 186–200): a match is stored
only when its index is within the shared-string list, and the stored
value is the resolved shared string. -/
def sharedPass (fullText : List Char) (sharedStrings : List (List Char))
    (m : List (String × CellEntry)) : List (String × CellEntry) :=
  (scanAll trySharedCell fullText).foldl
    (fun acc cm =>
      let stringIndex := parseDigits cm.payload
      if stringIndex < sharedStrings.length then
        jsObjSet acc (cellKey cm)
          ⟨parseDigits cm.rowDigits, cm.colRef,
            sharedStrings.getD stringIndex []⟩
      else acc)
    m

/-- The inline-string pass (lines 203–217). -/
def inlinePass (fullText : List Char)
    (m : List (String × CellEntry)) : List (String × CellEntry) :=
  (scanAll tryInlineCell fullText).foldl
    (fun acc cm =>
      jsObjSet acc (cellKey cm)
        ⟨parseDigits cm.rowDigits, cm.colRef, cm.payload⟩)
    m

/-- The numeric/value pass (lines 219–232). -/
def numericPass (fullText : List Char)
    (m : List (String × CellEntry)) : List (String × CellEntry) :=
  (scanAll tryNumericCell fullText).foldl
    (fun acc cm =>
      jsObjSet acc (cellKey cm)
        ⟨parseDigits cm.rowDigits, cm.colRef, cm.payload⟩)
    m

/-- The sparse cell map built by the second-attempt fallback
(lines 163–232): empty when the stage does not run (no truthy string
table capture). -/
def fallbackCellData (fullText : List Char) : List (String × CellEntry) :=
  match extractStringTable fullText with
  | none => []
  | some stringTable =>
    if stringTable.isEmpty then []
    else
      numericPass fullText
        (inlinePass fullText
          (sharedPass fullText (sharedStringsOf stringTable) []))

/-! #### A generated class of archive texts for C10: a string table
followed by shared-string-indexed cells. -/

/-- One shared-string-indexed cell to be rendered: column letters, row
digits, and the string-index digits. -/
structure SharedCellSpec where
  col : List Char
  rowD : List Char
  idxD : List Char
deriving DecidableEq

def renderSharedCell (s : SharedCellSpec) : List Char :=
  cellRefOpen ++ s.col ++ s.rowD ++ "\" t=\"s\"><v>".toList ++
    s.idxD ++ "</v></c>".toList

def renderSi (v : List Char) : List Char :=
  "<si><t>".toList ++ v ++ "</t></si>".toList

def renderSst (strings : List (List Char)) : List Char :=
  "<sst>".toList ++ (strings.map renderSi).flatten ++ "</sst>".toList

/-- A whole archive text of the class: the string table, then the
cells. -/
def renderSharedDoc (strings : List (List Char))
    (cells : List SharedCellSpec) : List Char :=
  renderSst strings ++ (cells.map renderSharedCell).flatten

/-- The match a rendered cell produces. -/
def specMatch (s : SharedCellSpec) : CellRefMatch :=
  ⟨s.col, s.rowD, s.idxD⟩

/-- The key a rendered cell is stored under. -/
def specKey (s : SharedCellSpec) : String :=
  String.mk s.col ++ toString (parseDigits s.rowD)

/-- Well-formedness of one rendered cell: non-empty uppercase column,
non-empty digit row, non-empty digit index within the string list. -/
def WfSharedCell (nStrings : Nat) (s : SharedCellSpec) : Prop :=
  s.col ≠ [] ∧ (∀ c ∈ s.col, isAsciiUpper c = true) ∧
  s.rowD ≠ [] ∧ (∀ c ∈ s.rowD, isAsciiDigit c = true) ∧
  s.idxD ≠ [] ∧ (∀ c ∈ s.idxD, isAsciiDigit c = true) ∧
  parseDigits s.idxD < nStrings

instance (n : Nat) (s : SharedCellSpec) : Decidable (WfSharedCell n s) := by
  unfold WfSharedCell; infer_instance

/-- Well-formedness of one shared string: truthy and `<`-free. -/
def WfSharedString (v : List Char) : Prop := v ≠ [] ∧ NoLt v

instance (v : List Char) : Decidable (WfSharedString v) := by
  unfold WfSharedString; infer_instance

/-! #### Character facts and scanning helpers for C10 -/

theorem digit_ne_lt {c : Char} (h : isAsciiDigit c = true) : c ≠ '<' := by
  intro he
  subst he
  exact absurd h (by decide)

theorem upper_ne_lt {c : Char} (h : isAsciiUpper c = true) : c ≠ '<' := by
  intro he
  subst he
  exact absurd h (by decide)

theorem not_upper_of_digit {c : Char} (h : isAsciiDigit c = true) :
    isAsciiUpper c = false := by
  unfold isAsciiDigit at h
  rw [Bool.and_eq_true] at h
  rcases h with ⟨h1, h2⟩
  have h9 : c ≤ '9' := of_decide_eq_true h2
  have hA : ¬ ('A' ≤ c) := by
    intro hc
    have h1 : c < c := lt_of_le_of_lt h9 (lt_of_lt_of_le (by decide) hc)
    exact absurd h1 (lt_irrefl c)
  unfold isAsciiUpper
  simp [hA]

/-- A maximal run of the predicate stops exactly at the first failing
character. -/
theorem takeWhile_append_stop {p : Char → Bool} {a : List Char}
    (ha : ∀ c ∈ a, p c = true) {d : Char} (hd : p d = false)
    (y : List Char) :
    (a ++ d :: y).takeWhile p = a := by
  induction a with
  | nil => simp [List.takeWhile, hd]
  | cons c cs ih =>
    have hc : p c = true := ha c (by simp)
    rw [List.cons_append, List.takeWhile_cons, hc, if_pos rfl,
      ih fun e he => ha e (by simp [he])]

theorem cellRefPrelude_gated {t : List Char} (h : ¬ (cellRefOpen <+: t)) :
    cellRefPrelude t = none := by
  unfold cellRefPrelude
  rw [if_neg]
  intro hb
  exact h (List.isPrefixOf_iff_prefix.mp hb)

theorem trySharedCell_gated :
    ∀ t, ¬ (cellRefOpen <+: t) → trySharedCell t = none := by
  intro t h
  simp [trySharedCell, cellRefPrelude_gated h]

theorem tryInlineCell_gated :
    ∀ t, ¬ (cellRefOpen <+: t) → tryInlineCell t = none := by
  intro t h
  simp [tryInlineCell, cellRefPrelude_gated h]

theorem tryNumericCell_gated :
    ∀ t, ¬ (cellRefOpen <+: t) → tryNumericCell t = none := by
  intro t h
  simp [tryNumericCell, cellRefPrelude_gated h]

/-- The key inclusion behind C10: the numeric/value pattern differs
from the shared-string pattern only by dropping the `t="s"` constraint
and widening the digit capture to `[^<]*`, so any position matched by
the shared-string pattern is matched by the numeric pattern with the
same captures and the same length. -/
theorem sharedCell_implies_numeric {t : List Char} {cm : CellRefMatch}
    {len : Nat} (h : trySharedCell t = some (cm, len)) :
    tryNumericCell t = some (cm, len) := by
  rcases hp : cellRefPrelude t with _ | ⟨col, row, k, r3⟩
  · simp [trySharedCell, hp] at h
  · simp only [trySharedCell, hp] at h
    simp only [tryNumericCell, hp]
    by_cases h5 : 5 ≤ k
    swap
    · rw [if_neg h5] at h
      exact absurd h (by simp)
    rw [if_pos h5] at h
    by_cases ht : (r3.drop (k - 5)).take 5 = "t=\"s\"".toList
    swap
    · rw [if_neg ht] at h
      exact absurd h (by simp)
    rw [if_pos ht] at h
    by_cases hv : "<v>".toList.isPrefixOf (r3.drop (k + 1)) = true
    swap
    · rw [if_neg hv] at h
      exact absurd h (by simp)
    rw [if_pos hv] at h
    rw [if_pos hv]
    generalize hd : ((r3.drop (k + 1)).drop 3).takeWhile isAsciiDigit = d at h
    by_cases hfin : (!d.isEmpty &&
        "</v></c>".toList.isPrefixOf ((r3.drop (k + 1)).drop (3 + d.length)))
        = true
    swap
    · rw [if_neg hfin] at h
      exact absurd h (by simp)
    rw [if_pos hfin] at h
    rw [Bool.and_eq_true] at hfin
    rcases hfin with ⟨hdne, hclose⟩
    have hdpre : d <+: (r3.drop (k + 1)).drop 3 := by
      rw [← hd]
      exact List.takeWhile_prefix _
    have hsplit : (r3.drop (k + 1)).drop 3 =
        d ++ ((r3.drop (k + 1)).drop 3).drop d.length := by
      conv_lhs => rw [← List.take_append_drop d.length ((r3.drop (k + 1)).drop 3)]
      rw [← List.prefix_iff_eq_take.mp hdpre]
    have hdd : ((r3.drop (k + 1)).drop 3).drop d.length =
        (r3.drop (k + 1)).drop (3 + d.length) :=
      List.drop_drop d.length 3 _
    obtain ⟨t2, ht2⟩ := List.isPrefixOf_iff_prefix.mp hclose
    have hshape : (r3.drop (k + 1)).drop 3 =
        d ++ ('<' :: ("/v></c>".toList ++ t2)) := by
      rw [hsplit, hdd, ← ht2]
      rfl
    have hnolt : NoLt d := by
      intro c hc
      have hcd : isAsciiDigit c = true := by
        rw [← hd] at hc
        exact List.mem_takeWhile_imp hc
      exact digit_ne_lt hcd
    have hveq : ((r3.drop (k + 1)).drop 3).takeWhile (fun c => c ≠ '<') = d := by
      rw [hshape]
      exact takeWhile_until_lt hnolt _
    rw [hveq, if_pos hclose]
    exact h

/-- The prelude of the three cell patterns on a well-formed rendered
shared cell: it captures the column and the row and stops at the `>`
of `t="s">`, six characters into the remainder after the quote. -/
theorem cellRefPrelude_render (s : SharedCellSpec) {n : Nat}
    (hwf : WfSharedCell n s) (rest : List Char) :
    cellRefPrelude (renderSharedCell s ++ rest) =
      some (s.col, s.rowD, 6, " t=\"s\"".toList ++ '>' ::
        ("<v>".toList ++ (s.idxD ++ ("</v></c>".toList ++ rest)))) := by
  obtain ⟨hcolne, hcolup, hrowne, hrowdig, hidxne, hidxdig, hidxlt⟩ := hwf
  rcases hrow : s.rowD with _ | ⟨rd, rds⟩
  · exact absurd hrow hrowne
  have hrowdig2 : ∀ c ∈ rd :: rds, isAsciiDigit c = true := hrow ▸ hrowdig
  have hlit : ∀ X : List Char, "\" t=\"s\"><v>".toList ++ X =
      '"' :: (" t=\"s\"".toList ++ '>' :: ("<v>".toList ++ X)) :=
    fun X => rfl
  have hshape : renderSharedCell s ++ rest =
      cellRefOpen ++ (s.col ++ ((rd :: rds) ++ ('"' :: (" t=\"s\"".toList ++
        '>' :: ("<v>".toList ++ (s.idxD ++ ("</v></c>".toList ++ rest))))))) := by
    unfold renderSharedCell
    rw [hrow]
    simp only [List.append_assoc]
    rw [hlit]
  rw [hshape]
  have hpre2 : cellRefOpen.isPrefixOf (cellRefOpen ++ (s.col ++ ((rd :: rds) ++
      ('"' :: (" t=\"s\"".toList ++ '>' :: ("<v>".toList ++ (s.idxD ++
        ("</v></c>".toList ++ rest)))))))) = true := isPrefixOf_append_self ..
  have hdrop6 : (cellRefOpen ++ (s.col ++ ((rd :: rds) ++
      ('"' :: (" t=\"s\"".toList ++ '>' :: ("<v>".toList ++ (s.idxD ++
        ("</v></c>".toList ++ rest)))))))).drop 6 =
      s.col ++ ((rd :: rds) ++ ('"' :: (" t=\"s\"".toList ++ '>' ::
        ("<v>".toList ++ (s.idxD ++ ("</v></c>".toList ++ rest)))))) :=
    List.drop_left' (by decide)
  have hcol : (s.col ++ ((rd :: rds) ++ ('"' :: (" t=\"s\"".toList ++ '>' ::
      ("<v>".toList ++ (s.idxD ++ ("</v></c>".toList ++ rest))))))).takeWhile
        isAsciiUpper = s.col := by
    rw [show (rd :: rds) ++ ('"' :: (" t=\"s\"".toList ++ '>' ::
        ("<v>".toList ++ (s.idxD ++ ("</v></c>".toList ++ rest))))) =
      rd :: (rds ++ ('"' :: (" t=\"s\"".toList ++ '>' ::
        ("<v>".toList ++ (s.idxD ++ ("</v></c>".toList ++ rest)))))) from rfl]
    exact takeWhile_append_stop hcolup
      (not_upper_of_digit (hrowdig2 rd (by simp))) _
  have hr1 : (s.col ++ ((rd :: rds) ++ ('"' :: (" t=\"s\"".toList ++ '>' ::
      ("<v>".toList ++ (s.idxD ++ ("</v></c>".toList ++ rest))))))).drop
        s.col.length =
      (rd :: rds) ++ ('"' :: (" t=\"s\"".toList ++ '>' ::
        ("<v>".toList ++ (s.idxD ++ ("</v></c>".toList ++ rest))))) :=
    List.drop_left ..
  have hrow2 : ((rd :: rds) ++ ('"' :: (" t=\"s\"".toList ++ '>' ::
      ("<v>".toList ++ (s.idxD ++ ("</v></c>".toList ++ rest)))))).takeWhile
        isAsciiDigit = rd :: rds :=
    takeWhile_append_stop hrowdig2 (by decide) _
  have hr2 : ((rd :: rds) ++ ('"' :: (" t=\"s\"".toList ++ '>' ::
      ("<v>".toList ++ (s.idxD ++ ("</v></c>".toList ++ rest)))))).drop
        (rd :: rds).length =
      '"' :: (" t=\"s\"".toList ++ '>' ::
        ("<v>".toList ++ (s.idxD ++ ("</v></c>".toList ++ rest)))) :=
    List.drop_left ..
  have hce : s.col.isEmpty = false := by
    cases hC : s.col with
    | nil => exact absurd hC hcolne
    | cons a l => rfl
  have hcond : (!s.col.isEmpty && !(rd :: rds).isEmpty &&
      (('"' :: (" t=\"s\"".toList ++ '>' :: ("<v>".toList ++ (s.idxD ++
        ("</v></c>".toList ++ rest))))).head? == some '"')) = true := by
    rw [hce]
    rfl
  have hfind : findSub ['>'] (" t=\"s\"".toList ++ '>' ::
      ("<v>".toList ++ (s.idxD ++ ("</v></c>".toList ++ rest)))) = some 6 := by
    have h6 := findSub_shift_exact
      (show NoPartial ['>'] " t=\"s\"".toList by decide)
      ("<v>".toList ++ (s.idxD ++ ("</v></c>".toList ++ rest)))
    simpa using h6
  simp only [cellRefPrelude, hpre2, if_true, hdrop6, hcol, hr1, hrow2, hr2,
    hcond, List.drop_succ_cons, List.drop_zero, hfind]

/-- A well-formed rendered shared cell is matched in full by the
shared-string pattern, capturing column, row, and index digits. -/
theorem trySharedCell_render (s : SharedCellSpec) {n : Nat}
    (hwf : WfSharedCell n s) (rest : List Char) :
    trySharedCell (renderSharedCell s ++ rest) =
      some (specMatch s, (renderSharedCell s).length) := by
  obtain ⟨hcolne, hcolup, hrowne, hrowdig, hidxne, hidxdig, hidxlt⟩ := hwf
  have hpre := cellRefPrelude_render s
    ⟨hcolne, hcolup, hrowne, hrowdig, hidxne, hidxdig, hidxlt⟩ rest
  have hie : s.idxD.isEmpty = false := by
    cases hI : s.idxD with
    | nil => exact absurd hI hidxne
    | cons a l => rfl
  simp only [trySharedCell, hpre]
  rw [if_pos (show (5 : Nat) ≤ 6 by omega)]
  rw [if_pos (show (((" t=\"s\"".toList ++ '>' ::
      ("<v>".toList ++ (s.idxD ++ ("</v></c>".toList ++ rest)))).drop
        (6 - 5)).take 5) = "t=\"s\"".toList from rfl)]
  have hv : "<v>".toList.isPrefixOf ((" t=\"s\"".toList ++ '>' ::
      ("<v>".toList ++ (s.idxD ++ ("</v></c>".toList ++ rest)))).drop (6 + 1))
      = true := by
    rw [show ((" t=\"s\"".toList ++ '>' ::
        ("<v>".toList ++ (s.idxD ++ ("</v></c>".toList ++ rest)))).drop (6 + 1))
        = "<v>".toList ++ (s.idxD ++ ("</v></c>".toList ++ rest)) from rfl]
    exact isPrefixOf_append_self ..
  rw [if_pos hv]
  have hd : (((" t=\"s\"".toList ++ '>' ::
      ("<v>".toList ++ (s.idxD ++ ("</v></c>".toList ++ rest)))).drop
        (6 + 1)).drop 3).takeWhile isAsciiDigit = s.idxD := by
    rw [show (((" t=\"s\"".toList ++ '>' ::
        ("<v>".toList ++ (s.idxD ++ ("</v></c>".toList ++ rest)))).drop
          (6 + 1)).drop 3)
        = s.idxD ++ ('<' :: ("/v></c>".toList ++ rest)) from rfl]
    exact takeWhile_append_stop hidxdig (by decide) _
  rw [hd]
  have hclose : "</v></c>".toList.isPrefixOf
      (((" t=\"s\"".toList ++ '>' ::
        ("<v>".toList ++ (s.idxD ++ ("</v></c>".toList ++ rest)))).drop
          (6 + 1)).drop (3 + s.idxD.length)) = true := by
    rw [← List.drop_drop]
    rw [show (((" t=\"s\"".toList ++ '>' ::
        ("<v>".toList ++ (s.idxD ++ ("</v></c>".toList ++ rest)))).drop
          (6 + 1)).drop 3)
        = s.idxD ++ ("</v></c>".toList ++ rest) from rfl]
    rw [List.drop_left]
    exact isPrefixOf_append_self ..
  rw [hie, hclose]
  rw [if_pos (show ((!false && true) = true) from rfl)]
  simp only [specMatch, Option.some.injEq, Prod.mk.injEq]
  refine ⟨trivial, ?_⟩
  simp [renderSharedCell, cellRefOpen, List.length_append]
  omega

/-- A well-formed rendered shared cell is matched in full, with the
same captures and length, by the numeric/value pattern. -/
theorem tryNumericCell_render (s : SharedCellSpec) {n : Nat}
    (hwf : WfSharedCell n s) (rest : List Char) :
    tryNumericCell (renderSharedCell s ++ rest) =
      some (specMatch s, (renderSharedCell s).length) :=
  sharedCell_implies_numeric (trySharedCell_render s hwf rest)

/-- A rendered shared cell has no `<is><t>` after its first `>`, so
the inline-string pattern fails at its start. -/
theorem tryInlineCell_render_none (s : SharedCellSpec) {n : Nat}
    (hwf : WfSharedCell n s) (rest : List Char) :
    tryInlineCell (renderSharedCell s ++ rest) = none := by
  obtain ⟨hcolne, hcolup, hrowne, hrowdig, hidxne, hidxdig, hidxlt⟩ := hwf
  have hpre := cellRefPrelude_render s
    ⟨hcolne, hcolup, hrowne, hrowdig, hidxne, hidxdig, hidxlt⟩ rest
  simp only [tryInlineCell, hpre]
  have hno : "<is><t>".toList.isPrefixOf ((" t=\"s\"".toList ++ '>' ::
      ("<v>".toList ++ (s.idxD ++ ("</v></c>".toList ++ rest)))).drop (6 + 1))
      = false := rfl
  rw [if_neg (by simp [hno])]

theorem renderSharedCell_ne_nil (s : SharedCellSpec) :
    renderSharedCell s ≠ [] := by
  unfold renderSharedCell
  intro h
  have hlen := congrArg List.length h
  simp [List.length_append] at hlen

/-- No occurrence of the cell-open literal can begin strictly inside a
rendered shared cell. -/
theorem noPartial_renderSharedCell_tail (s : SharedCellSpec) {n : Nat}
    (hwf : WfSharedCell n s) :
    NoPartial cellRefOpen ((renderSharedCell s).drop 1) := by
  obtain ⟨hcolne, hcolup, hrowne, hrowdig, hidxne, hidxdig, hidxlt⟩ := hwf
  have hshape : (renderSharedCell s).drop 1 =
      "c r=\"".toList ++ (s.col ++ (s.rowD ++ ("\" t=\"s\"><v>".toList ++
        (s.idxD ++ "</v></c>".toList)))) := by
    unfold renderSharedCell cellRefOpen
    simp only [List.append_assoc]
    rfl
  rw [hshape]
  refine noPartial_append (by decide) (noPartial_append
    (noPartial_of_head_free rfl fun c hc => upper_ne_lt (hcolup c hc))
    (noPartial_append
      (noPartial_of_head_free rfl fun c hc => digit_ne_lt (hrowdig c hc))
      (noPartial_append (by decide)
        (noPartial_append
          (noPartial_of_head_free rfl fun c hc => digit_ne_lt (hidxdig c hc))
          (by decide)))))

/-- The shared-string scan over a run of rendered cells yields one
match per cell, in order. -/
theorem scanAll_shared_cells {nS : Nat} (cells : List SharedCellSpec)
    (hwf : ∀ s ∈ cells, WfSharedCell nS s) :
    scanAll trySharedCell ((cells.map renderSharedCell).flatten) =
      cells.map specMatch := by
  induction cells with
  | nil => rfl
  | cons s ss ih =>
    rw [List.map_cons, List.flatten_cons,
      scanAll_append_match (trySharedCell_render s (hwf s (by simp)) _)
        (renderSharedCell_ne_nil s),
      ih fun d hd => hwf d (by simp [hd])]
    rfl

/-- The numeric/value scan over the same run yields the same matches. -/
theorem scanAll_numeric_cells {nS : Nat} (cells : List SharedCellSpec)
    (hwf : ∀ s ∈ cells, WfSharedCell nS s) :
    scanAll tryNumericCell ((cells.map renderSharedCell).flatten) =
      cells.map specMatch := by
  induction cells with
  | nil => rfl
  | cons s ss ih =>
    rw [List.map_cons, List.flatten_cons,
      scanAll_append_match (tryNumericCell_render s (hwf s (by simp)) _)
        (renderSharedCell_ne_nil s),
      ih fun d hd => hwf d (by simp [hd])]
    rfl

/-- The inline-string scan finds nothing in a run of rendered shared
cells. -/
theorem scanAll_inline_cells {nS : Nat} (cells : List SharedCellSpec)
    (hwf : ∀ s ∈ cells, WfSharedCell nS s) (t : List Char) :
    scanAll tryInlineCell ((cells.map renderSharedCell).flatten ++ t) =
      scanAll tryInlineCell t := by
  induction cells with
  | nil => simp
  | cons s ss ih =>
    rw [List.map_cons, List.flatten_cons, List.append_assoc]
    rw [scanAll_append_dead ?hdead]
    · exact ih fun d hd => hwf d (by simp [hd])
    case hdead =>
      intro p hp
      rcases Nat.eq_zero_or_pos p with rfl | hpos
      · rw [List.drop_zero]
        exact tryInlineCell_render_none s (hwf s (by simp)) _
      · apply tryInlineCell_gated
        intro hpre2
        have hnp := noPartial_renderSharedCell_tail s (hwf s (by simp))
        have hdrop : (renderSharedCell s).drop p =
            ((renderSharedCell s).drop 1).drop (p - 1) := by
          rw [List.drop_drop]
          congr 1
          omega
        rw [hdrop] at hpre2
        have hlt : p - 1 < ((renderSharedCell s).drop 1).length := by
          rw [List.length_drop]
          omega
        rcases prefix_append_cases hpre2 with h' | h'
        · exact (hnp (p - 1) hlt).2 h'
        · exact (hnp (p - 1) hlt).1 h'

theorem noPartial_cellRefOpen_si (v : List Char) (hv : NoLt v) :
    NoPartial cellRefOpen (renderSi v) := by
  unfold renderSi
  exact noPartial_append
    (noPartial_append (by decide)
      (noPartial_of_head_free (show cellRefOpen.head? = some '<' from rfl) hv))
    (by decide)

/-- The cell-open literal cannot begin anywhere inside the rendered
string table. -/
theorem noPartial_cellRefOpen_sst (strings : List (List Char))
    (h : ∀ v ∈ strings, WfSharedString v) :
    NoPartial cellRefOpen (renderSst strings) := by
  unfold renderSst
  refine noPartial_append (noPartial_append (by decide) ?_) (by decide)
  apply noPartial_flatten
  intro l hl
  rw [List.mem_map] at hl
  obtain ⟨v, hv, rfl⟩ := hl
  exact noPartial_cellRefOpen_si v (h v hv).2

theorem noPartial_closeSst_si (v : List Char) (hv : NoLt v) :
    NoPartial "</sst>".toList (renderSi v) := by
  unfold renderSi
  exact noPartial_append
    (noPartial_append (by decide)
      (noPartial_of_head_free (show ("</sst>".toList).head? = some '<' from rfl)
        hv))
    (by decide)

theorem noPartial_closeSst_body (strings : List (List Char))
    (h : ∀ v ∈ strings, WfSharedString v) :
    NoPartial "</sst>".toList ((strings.map renderSi).flatten) := by
  apply noPartial_flatten
  intro l hl
  rw [List.mem_map] at hl
  obtain ⟨v, hv, rfl⟩ := hl
  exact noPartial_closeSst_si v (h v hv).2

/-- The string-table pattern matches at the very start of a rendered
document, capturing exactly the rendered entries. -/
theorem sstStep_doc (strings : List (List Char))
    (cells : List SharedCellSpec)
    (hstr : ∀ v ∈ strings, WfSharedString v) :
    sstStep (renderSharedDoc strings cells) =
      some ((strings.map renderSi).flatten) := by
  unfold renderSharedDoc renderSst
  simp only [List.append_assoc]
  have hpre : "<sst".toList.isPrefixOf ("<sst>".toList ++
      ((strings.map renderSi).flatten ++ ("</sst>".toList ++
        (cells.map renderSharedCell).flatten))) = true := rfl
  have hk : findSub ['>'] (("<sst>".toList ++
      ((strings.map renderSi).flatten ++ ("</sst>".toList ++
        (cells.map renderSharedCell).flatten))).drop 4) = some 0 := by
    rw [show (("<sst>".toList ++ ((strings.map renderSi).flatten ++
        ("</sst>".toList ++ (cells.map renderSharedCell).flatten))).drop 4) =
      '>' :: ((strings.map renderSi).flatten ++ ("</sst>".toList ++
        (cells.map renderSharedCell).flatten)) from rfl]
    exact findSub_eq_zero (by simp [List.isPrefixOf])
  have hbody : (("<sst>".toList ++
      ((strings.map renderSi).flatten ++ ("</sst>".toList ++
        (cells.map renderSharedCell).flatten))).drop 4).drop (0 + 1) =
      (strings.map renderSi).flatten ++ ("</sst>".toList ++
        (cells.map renderSharedCell).flatten) := rfl
  have hm : findSub "</sst>".toList ((strings.map renderSi).flatten ++
      ("</sst>".toList ++ (cells.map renderSharedCell).flatten)) =
      some ((strings.map renderSi).flatten).length := by
    have h6 := findSub_shift_exact (noPartial_closeSst_body strings hstr)
      ((cells.map renderSharedCell).flatten)
    simpa using h6
  have htake : ((strings.map renderSi).flatten ++ ("</sst>".toList ++
      (cells.map renderSharedCell).flatten)).take
        ((strings.map renderSi).flatten).length =
      (strings.map renderSi).flatten := List.take_left ..
  simp only [sstStep, hpre, if_true, hk, hbody, hm, htake]

/-- `stringTableRegex.exec` on a rendered document returns the
rendered entries. -/
theorem extractStringTable_doc (strings : List (List Char))
    (cells : List SharedCellSpec)
    (hstr : ∀ v ∈ strings, WfSharedString v) :
    extractStringTable (renderSharedDoc strings cells) =
      some ((strings.map renderSi).flatten) := by
  have hstep := sstStep_doc strings cells hstr
  have hshape : renderSharedDoc strings cells =
      '<' :: ("sst>".toList ++ ((strings.map renderSi).flatten ++
        ("</sst>".toList ++ (cells.map renderSharedCell).flatten))) := by
    unfold renderSharedDoc renderSst
    simp only [List.append_assoc]
    rfl
  unfold extractStringTable
  rw [hshape] at hstep ⊢
  simp only [findFirst, hstep]
  rfl

theorem sstBody_ne_nil {strings : List (List Char)} (h : strings ≠ []) :
    ((strings.map renderSi).flatten).isEmpty = false := by
  rcases strings with _ | ⟨v, vs⟩
  · exact absurd rfl h
  · rw [List.map_cons, List.flatten_cons]
    unfold renderSi
    rfl

/-- The `<t …>` element pattern matches at the start of a rendered
entry body, capturing the entry text. -/
theorem tMatchStep_render (v : List Char) (hnolt : NoLt v)
    (rest : List Char) :
    tMatchStep ('<' :: ('t' :: ('>' :: (v ++ ("</t></si>".toList ++ rest))))) =
      some (v, 7 + v.length) := by
  have h1 : "<t".toList.isPrefixOf
      ('<' :: ('t' :: ('>' :: (v ++ ("</t></si>".toList ++ rest))))) = true :=
    rfl
  have h2 : findSub ['>']
      (('<' :: ('t' :: ('>' :: (v ++ ("</t></si>".toList ++ rest))))).drop 2) =
      some 0 := by
    rw [show (('<' :: ('t' :: ('>' :: (v ++
        ("</t></si>".toList ++ rest))))).drop 2) =
      '>' :: (v ++ ("</t></si>".toList ++ rest)) from rfl]
    exact findSub_eq_zero (by simp [List.isPrefixOf])
  have hval : ((('<' :: ('t' :: ('>' :: (v ++
      ("</t></si>".toList ++ rest))))).drop 2).drop (0 + 1)).takeWhile
        (fun c => c ≠ '<') = v := by
    rw [show (('<' :: ('t' :: ('>' :: (v ++
        ("</t></si>".toList ++ rest))))).drop 2).drop (0 + 1) =
        v ++ ('<' :: ("/t></si>".toList ++ rest)) from rfl]
    exact takeWhile_until_lt hnolt _
  have hcl : "</t>".toList.isPrefixOf
      ((('<' :: ('t' :: ('>' :: (v ++
        ("</t></si>".toList ++ rest))))).drop 2).drop (0 + 1 + v.length)) =
      true := by
    rw [List.drop_drop,
      show (2 + (0 + 1 + v.length)) = 3 + v.length from by omega,
      ← List.drop_drop]
    rw [show ('<' :: ('t' :: ('>' :: (v ++
        ("</t></si>".toList ++ rest))))).drop 3 =
        v ++ ("</t></si>".toList ++ rest) from rfl]
    rw [List.drop_left]
    rfl
  simp only [tMatchStep, h1, if_true, h2, hval, hcl]
  simp only [Option.some.injEq, Prod.mk.injEq, true_and]
  omega

theorem renderSi_ne_nil (v : List Char) : renderSi v ≠ [] := by
  unfold renderSi
  intro h
  have hlen := congrArg List.length h
  simp [List.length_append] at hlen

/-- The shared-string entry pattern matches a rendered entry in full,
capturing its text: the first lazy gap stops at once (the `<t>` element
is immediately there) and the second at the immediately following
`</si>`. -/
theorem siStep_render (v : List Char) (hv : WfSharedString v)
    (rest : List Char) :
    siStep (renderSi v ++ rest) = some (v, (renderSi v).length) := by
  obtain ⟨hne, hnolt⟩ := hv
  have hshape : renderSi v ++ rest =
      "<si>".toList ++ ('<' :: ('t' :: ('>' ::
        (v ++ ("</t></si>".toList ++ rest))))) := by
    unfold renderSi
    simp only [List.append_assoc]
    rfl
  rw [hshape]
  have hpre : "<si>".toList.isPrefixOf ("<si>".toList ++ ('<' :: ('t' ::
      ('>' :: (v ++ ("</t></si>".toList ++ rest)))))) = true :=
    isPrefixOf_append_self ..
  have hdrop : ("<si>".toList ++ ('<' :: ('t' :: ('>' ::
      (v ++ ("</t></si>".toList ++ rest)))))).drop 4 =
      '<' :: ('t' :: ('>' :: (v ++ ("</t></si>".toList ++ rest)))) :=
    List.drop_left' (by decide)
  have hlen : ('<' :: ('t' :: ('>' ::
      (v ++ ("</t></si>".toList ++ rest))))).length =
      ((v ++ ("</t></si>".toList ++ rest)).length + 2) + 1 := by
    simp
  have hdrop7 : ('<' :: ('t' :: ('>' ::
      (v ++ ("</t></si>".toList ++ rest))))).drop (7 + v.length) =
      "</si>".toList ++ rest := by
    rw [show (7 + v.length) = 3 + (v.length + 4) from by omega,
      ← List.drop_drop]
    rw [show ('<' :: ('t' :: ('>' ::
        (v ++ ("</t></si>".toList ++ rest))))).drop 3 =
        v ++ ("</t></si>".toList ++ rest) from rfl]
    rw [← List.drop_drop, List.drop_left]
    rfl
  have hfind5 : findSub "</si>".toList ("</si>".toList ++ rest) = some 0 :=
    findSub_eq_zero_of_append ..
  simp only [siStep, hpre, if_true, hdrop, hlen]
  simp only [siBodyLoop, tMatchStep_render v hnolt rest, hdrop7, hfind5]
  simp only [Option.some.injEq, Prod.mk.injEq, true_and]
  simp [renderSi, List.length_append]
  omega

/-- The entry scan over the rendered string-table body returns exactly
the entry texts, in order. -/
theorem scanAll_si (strings : List (List Char))
    (h : ∀ v ∈ strings, WfSharedString v) :
    scanAll siStep ((strings.map renderSi).flatten) = strings := by
  induction strings with
  | nil => rfl
  | cons v vs ih =>
    rw [List.map_cons, List.flatten_cons,
      scanAll_append_match (siStep_render v (h v (by simp)) _)
        (renderSi_ne_nil v),
      ih fun w hw => h w (by simp [hw])]

/-- The shared-string list built from the rendered table body is the
original list of strings (all of them are truthy). -/
theorem sharedStringsOf_render (strings : List (List Char))
    (h : ∀ v ∈ strings, WfSharedString v) :
    sharedStringsOf ((strings.map renderSi).flatten) = strings := by
  unfold sharedStringsOf
  rw [scanAll_si strings h]
  apply List.filter_eq_self.mpr
  intro v hv
  rcases hV : v with _ | ⟨a, l⟩
  · exact absurd hV (h v hv).1
  · rfl

/-- The shared-string scan over a rendered document: one match per
rendered cell. -/
theorem scanAll_doc_shared {nS : Nat} (strings : List (List Char))
    (cells : List SharedCellSpec)
    (hstr : ∀ v ∈ strings, WfSharedString v)
    (hwf : ∀ s ∈ cells, WfSharedCell nS s) :
    scanAll trySharedCell (renderSharedDoc strings cells) =
      cells.map specMatch := by
  unfold renderSharedDoc
  rw [scanAll_shift_gated trySharedCell_gated
    (noPartial_cellRefOpen_sst strings hstr)]
  exact scanAll_shared_cells cells hwf

/-- The numeric/value scan over a rendered document: the same matches
as the shared-string scan. -/
theorem scanAll_doc_numeric {nS : Nat} (strings : List (List Char))
    (cells : List SharedCellSpec)
    (hstr : ∀ v ∈ strings, WfSharedString v)
    (hwf : ∀ s ∈ cells, WfSharedCell nS s) :
    scanAll tryNumericCell (renderSharedDoc strings cells) =
      cells.map specMatch := by
  unfold renderSharedDoc
  rw [scanAll_shift_gated tryNumericCell_gated
    (noPartial_cellRefOpen_sst strings hstr)]
  exact scanAll_numeric_cells cells hwf

/-- The inline-string scan finds nothing in a rendered document. -/
theorem scanAll_doc_inline {nS : Nat} (strings : List (List Char))
    (cells : List SharedCellSpec)
    (hstr : ∀ v ∈ strings, WfSharedString v)
    (hwf : ∀ s ∈ cells, WfSharedCell nS s) :
    scanAll tryInlineCell (renderSharedDoc strings cells) = [] := by
  unfold renderSharedDoc
  rw [scanAll_shift_gated tryInlineCell_gated
    (noPartial_cellRefOpen_sst strings hstr)]
  have h := scanAll_inline_cells cells hwf []
  rw [List.append_nil] at h
  rw [h]
  rfl

/-! #### JavaScript object writes and lookups on the sparse cell map -/

theorem beq_false_symm {a b : String} (h : (a == b) = false) :
    (b == a) = false := by
  rw [beq_eq_false_iff_ne] at h ⊢
  exact fun he => h he.symm

theorem lookup_map_self (m : List (String × CellEntry)) (k : String)
    (v : CellEntry) (hany : m.any (fun kv => kv.1 == k) = true) :
    ((m.map fun kv => if kv.1 == k then (k, v) else kv).lookup k) = some v := by
  induction m with
  | nil => simp at hany
  | cons kv rest ih =>
    obtain ⟨k1, v1⟩ := kv
    rw [List.map_cons]
    by_cases hk : (k1 == k) = true
    · have h1 : k1 = k := eq_of_beq hk
      subst h1
      simp only [hk, if_pos rfl]
      simp [List.lookup_cons]
    · have hk' : (k1 == k) = false := by
        cases hx : (k1 == k)
        · rfl
        · exact absurd hx hk
      have hany' : rest.any (fun kv => kv.1 == k) = true := by
        simp only [List.any_cons] at hany
        rw [Bool.or_eq_true] at hany
        rcases hany with h1 | h1
        · exact absurd h1 (by simp [hk'])
        · exact h1
      simp only [hk', Bool.false_eq_true, if_false]
      simp only [List.lookup_cons, beq_false_symm hk']
      exact ih hany'

theorem lookup_map_other (m : List (String × CellEntry)) (k : String)
    (v : CellEntry) {k' : String} (h : (k' == k) = false) :
    ((m.map fun kv => if kv.1 == k then (k, v) else kv).lookup k') =
      m.lookup k' := by
  induction m with
  | nil => rfl
  | cons kv rest ih =>
    obtain ⟨k1, v1⟩ := kv
    rw [List.map_cons]
    by_cases hk : (k1 == k) = true
    · have h1 : k1 = k := eq_of_beq hk
      subst h1
      rw [show (if ((k1, v1).1 == k1) = true then (k1, v) else (k1, v1)) =
        (k1, v) from by simp [hk]]
      simp only [List.lookup_cons, h]
      exact ih
    · have hk' : (k1 == k) = false := by
        cases hx : (k1 == k)
        · rfl
        · exact absurd hx hk
      simp only [hk', Bool.false_eq_true, if_false]
      simp only [List.lookup_cons]
      cases hx : (k' == k1)
      · exact ih
      · rfl

theorem lookup_append_self (m : List (String × CellEntry)) (k : String)
    (v : CellEntry) (hall : ∀ kv ∈ m, (kv.1 == k) = false) :
    ((m ++ [(k, v)]).lookup k) = some v := by
  induction m with
  | nil => simp [List.lookup_cons]
  | cons kv rest ih =>
    obtain ⟨k1, v1⟩ := kv
    have h1 : (k1 == k) = false := hall (k1, v1) (by simp)
    rw [List.cons_append]
    simp only [List.lookup_cons, beq_false_symm h1]
    exact ih fun w hw => hall w (by simp [hw])

theorem lookup_append_single_other (m : List (String × CellEntry))
    (k : String) (v : CellEntry) {k' : String} (h : (k' == k) = false) :
    ((m ++ [(k, v)]).lookup k') = m.lookup k' := by
  induction m with
  | nil => simp [List.lookup_cons, h]
  | cons kv rest ih =>
    obtain ⟨k1, v1⟩ := kv
    rw [List.cons_append]
    simp only [List.lookup_cons]
    cases hx : (k' == k1)
    · exact ih
    · rfl

/-- Writing key `k` makes a lookup of `k` return the written value. -/
theorem jsObjSet_lookup_self (m : List (String × CellEntry)) (k : String)
    (v : CellEntry) : (jsObjSet m k v).lookup k = some v := by
  unfold jsObjSet
  by_cases hany : m.any (fun kv => kv.1 == k) = true
  · rw [if_pos hany]
    exact lookup_map_self m k v hany
  · rw [if_neg hany]
    apply lookup_append_self
    intro kv hkv
    cases hx : (kv.1 == k)
    · rfl
    · exact absurd (List.any_eq_true.mpr ⟨kv, hkv, hx⟩) hany

/-- Writing key `k` leaves lookups of other keys unchanged. -/
theorem jsObjSet_lookup_other (m : List (String × CellEntry)) (k : String)
    (v : CellEntry) {k' : String} (h : (k' == k) = false) :
    (jsObjSet m k v).lookup k' = m.lookup k' := by
  unfold jsObjSet
  by_cases hany : m.any (fun kv => kv.1 == k) = true
  · rw [if_pos hany]
    exact lookup_map_other m k v h
  · rw [if_neg hany]
    exact lookup_append_single_other m k v h

/-- A fold of writes to keys other than `k` does not change the
lookup of `k`. -/
theorem lookup_foldl_not_mem (ws : List (String × CellEntry)) (k : String)
    (h : ∀ w ∈ ws, (k == w.1) = false) :
    ∀ m, (((ws.foldl (fun acc w => jsObjSet acc w.1 w.2) m)).lookup k) =
      m.lookup k := by
  induction ws with
  | nil =>
    intro m
    rfl
  | cons w ws ih =>
    intro m
    rw [List.foldl_cons, ih (fun w' hw' => h w' (by simp [hw'])) _]
    exact jsObjSet_lookup_other m w.1 w.2 (h w (by simp))

/-- After a fold of writes with pairwise-distinct keys, each key reads
back its written value. -/
theorem lookup_foldl_self (ws : List (String × CellEntry)) (k : String)
    (v : CellEntry) :
    ∀ m, (ws.map Prod.fst).Nodup → (k, v) ∈ ws →
      (((ws.foldl (fun acc w => jsObjSet acc w.1 w.2) m)).lookup k) =
        some v := by
  induction ws with
  | nil =>
    intro m _ hmem
    exact absurd hmem (List.not_mem_nil _)
  | cons w ws ih =>
    intro m hnodup hmem
    rw [List.map_cons, List.nodup_cons] at hnodup
    rw [List.foldl_cons]
    rcases List.mem_cons.mp hmem with heq | hmem'
    · subst heq
      rw [lookup_foldl_not_mem ws k ?hfree _]
      · exact jsObjSet_lookup_self m k v
      case hfree =>
        intro w' hw'
        rw [beq_eq_false_iff_ne]
        intro hke
        exact hnodup.1 (by rw [hke]; exact List.mem_map.mpr ⟨w', hw', rfl⟩)
    · exact ih _ hnodup.2 hmem'

/-- The pair written by the shared-string pass for one match. -/
def sharedWrite (ss : List (List Char)) (cm : CellRefMatch) :
    String × CellEntry :=
  (cellKey cm,
    ⟨parseDigits cm.rowDigits, cm.colRef, ss.getD (parseDigits cm.payload) []⟩)

/-- The pair written by the inline and numeric passes for one match. -/
def rawWrite (cm : CellRefMatch) : String × CellEntry :=
  (cellKey cm, ⟨parseDigits cm.rowDigits, cm.colRef, cm.payload⟩)

/-- When every index is in range, the guarded shared-pass fold is a
plain fold of its writes. -/
theorem foldl_guard_eq (ss : List (List Char)) (ws : List CellRefMatch)
    (hg : ∀ cm ∈ ws, parseDigits cm.payload < ss.length) :
    ∀ m, ws.foldl (fun acc cm =>
        let stringIndex := parseDigits cm.payload
        if stringIndex < ss.length then
          jsObjSet acc (cellKey cm)
            ⟨parseDigits cm.rowDigits, cm.colRef, ss.getD stringIndex []⟩
        else acc) m =
      (ws.map (sharedWrite ss)).foldl (fun acc w => jsObjSet acc w.1 w.2) m := by
  induction ws with
  | nil =>
    intro m
    rfl
  | cons cm ws ih =>
    intro m
    rw [List.foldl_cons, List.map_cons, List.foldl_cons,
      ih fun c hc => hg c (by simp [hc])]
    congr 1
    simp only []
    rw [if_pos (hg cm (by simp))]
    rfl

/-- The numeric-pass fold is a plain fold of its writes. -/
theorem foldl_raw_eq (ws : List CellRefMatch) :
    ∀ m, ws.foldl (fun acc cm => jsObjSet acc (cellKey cm)
        ⟨parseDigits cm.rowDigits, cm.colRef, cm.payload⟩) m =
      (ws.map rawWrite).foldl (fun acc w => jsObjSet acc w.1 w.2) m := by
  induction ws with
  | nil =>
    intro m
    rfl
  | cons cm ws ih =>
    intro m
    rw [List.foldl_cons, List.map_cons, List.foldl_cons, ih]
    rfl

theorem sharedDoc_keys_raw (cells : List SharedCellSpec) :
    (((cells.map specMatch).map rawWrite).map Prod.fst) =
      cells.map specKey := by
  simp only [List.map_map]
  rfl

theorem sharedDoc_keys_shared (ss : List (List Char))
    (cells : List SharedCellSpec) :
    (((cells.map specMatch).map (sharedWrite ss)).map Prod.fst) =
      cells.map specKey := by
  simp only [List.map_map]
  rfl

/-- After the shared-string pass, each rendered cell's key holds the
resolved shared string. -/
theorem sharedPass_doc_lookup (strings : List (List Char))
    (cells : List SharedCellSpec)
    (hstr : ∀ v ∈ strings, WfSharedString v)
    (hwf : ∀ s ∈ cells, WfSharedCell strings.length s)
    (hkeys : (cells.map specKey).Nodup)
    (s : SharedCellSpec) (hs : s ∈ cells) :
    (sharedPass (renderSharedDoc strings cells) strings []).lookup (specKey s)
      = some ⟨parseDigits s.rowD, s.col,
          strings.getD (parseDigits s.idxD) []⟩ := by
  unfold sharedPass
  rw [scanAll_doc_shared strings cells hstr hwf]
  rw [foldl_guard_eq strings (cells.map specMatch) ?hg []]
  case hg =>
    intro cm hcm
    obtain ⟨s', hs', rfl⟩ := List.mem_map.mp hcm
    exact (hwf s' hs').2.2.2.2.2.2
  apply lookup_foldl_self
  · rw [sharedDoc_keys_shared]
    exact hkeys
  · exact List.mem_map.mpr ⟨specMatch s, List.mem_map.mpr ⟨s, hs, rfl⟩, rfl⟩

/-- After the numeric/value pass, each rendered cell's key holds the
raw index digit string, whatever map the pass started from. -/
theorem numericPass_doc_lookup (strings : List (List Char))
    (cells : List SharedCellSpec)
    (hstr : ∀ v ∈ strings, WfSharedString v)
    (hwf : ∀ s ∈ cells, WfSharedCell strings.length s)
    (hkeys : (cells.map specKey).Nodup)
    (m0 : List (String × CellEntry))
    (s : SharedCellSpec) (hs : s ∈ cells) :
    (numericPass (renderSharedDoc strings cells) m0).lookup (specKey s) =
      some ⟨parseDigits s.rowD, s.col, s.idxD⟩ := by
  unfold numericPass
  rw [scanAll_doc_numeric strings cells hstr hwf]
  rw [foldl_raw_eq (cells.map specMatch) m0]
  apply lookup_foldl_self
  · rw [sharedDoc_keys_raw]
    exact hkeys
  · exact List.mem_map.mpr ⟨specMatch s, List.mem_map.mpr ⟨s, hs, rfl⟩, rfl⟩

/-- On a rendered document the fallback stage runs (truthy string
table), the inline pass writes nothing, and the final map is the
numeric pass applied after the shared pass. -/
theorem fallbackCellData_doc (strings : List (List Char))
    (cells : List SharedCellSpec) (hne : strings ≠ [])
    (hstr : ∀ v ∈ strings, WfSharedString v)
    (hwf : ∀ s ∈ cells, WfSharedCell strings.length s) :
    fallbackCellData (renderSharedDoc strings cells) =
      numericPass (renderSharedDoc strings cells)
        (sharedPass (renderSharedDoc strings cells) strings []) := by
  unfold fallbackCellData
  rw [extractStringTable_doc strings cells hstr]
  show (if ((strings.map renderSi).flatten).isEmpty then []
    else numericPass (renderSharedDoc strings cells)
      (inlinePass (renderSharedDoc strings cells)
        (sharedPass (renderSharedDoc strings cells)
          (sharedStringsOf ((strings.map renderSi).flatten)) []))) = _
  rw [sstBody_ne_nil hne]
  simp only [Bool.false_eq_true, if_false]
  rw [sharedStringsOf_render strings hstr]
  have hinl : inlinePass (renderSharedDoc strings cells)
      (sharedPass (renderSharedDoc strings cells) strings []) =
      sharedPass (renderSharedDoc strings cells) strings [] := by
    unfold inlinePass
    rw [scanAll_doc_inline strings cells hstr hwf]
    rfl
  rw [hinl]

/-- C10: a position matched by the shared-string cell pattern is also
matched by the later-run numeric/value pattern with identical captures
and length; consequently, on any rendered document of the class (a
truthy string table followed by well-formed shared-indexed cells with
pairwise-distinct references), the shared pass first maps each cell
key to the resolved shared-string text, but the final fallback cell
map stores the raw index digit string under that key — the numeric
pass overwrites the resolved text. -/
theorem c10_raw_index_wins :
    (∀ (t : List Char) (cm : CellRefMatch) (len : Nat),
        trySharedCell t = some (cm, len) →
          tryNumericCell t = some (cm, len)) ∧
    ∀ (strings : List (List Char)) (cells : List SharedCellSpec),
      strings ≠ [] →
      (∀ v ∈ strings, WfSharedString v) →
      (∀ s ∈ cells, WfSharedCell strings.length s) →
      (cells.map specKey).Nodup →
      ∀ s ∈ cells,
        (sharedPass (renderSharedDoc strings cells) strings []).lookup
            (specKey s) =
          some ⟨parseDigits s.rowD, s.col,
            strings.getD (parseDigits s.idxD) []⟩ ∧
        (fallbackCellData (renderSharedDoc strings cells)).lookup
            (specKey s) =
          some ⟨parseDigits s.rowD, s.col, s.idxD⟩ := by
  refine ⟨fun t cm len h => sharedCell_implies_numeric h, ?_⟩
  intro strings cells hne hstr hwf hkeys s hs
  refine ⟨sharedPass_doc_lookup strings cells hstr hwf hkeys s hs, ?_⟩
  rw [fallbackCellData_doc strings cells hne hstr hwf]
  exact numericPass_doc_lookup strings cells hstr hwf hkeys _ s hs

/-- Witness for C10: with string table `["Hi"]` and the single cell
`<c r="A1" t="s"><v>0</v></c>`, the numeric pattern matches the cell in
full, the shared pass maps key `A1` to `Hi`, and the final map stores
the raw digit string `0` under `A1`. -/
theorem c10_raw_index_wins_witness :
    tryNumericCell (renderSharedCell ⟨['A'], ['1'], ['0']⟩) =
        some (⟨['A'], ['1'], ['0']⟩, 28) ∧
    (sharedPass (renderSharedDoc [['H', 'i']] [⟨['A'], ['1'], ['0']⟩])
        [['H', 'i']] []).lookup (specKey ⟨['A'], ['1'], ['0']⟩) =
      some ⟨1, ['A'], ['H', 'i']⟩ ∧
    (fallbackCellData (renderSharedDoc [['H', 'i']]
        [⟨['A'], ['1'], ['0']⟩])).lookup (specKey ⟨['A'], ['1'], ['0']⟩) =
      some ⟨1, ['A'], ['0']⟩ := by
  have h := (c10_raw_index_wins.2 [['H', 'i']] [⟨['A'], ['1'], ['0']⟩]
    (by decide) (by decide) (by decide) (by decide))
    ⟨['A'], ['1'], ['0']⟩ (by decide)
  refine ⟨c10_raw_index_wins.1 _ ⟨['A'], ['1'], ['0']⟩ 28 (by decide), ?_, ?_⟩
  · exact h.1
  · exact h.2

end ExcelCheck
